import Mathlib

/-!
Verification development for the omislisi-accounting repository.

This file gives a shallow embedding of the parts of the code base that the
checked properties talk about:

* `analysis/counterparty_utils.py` — counterparty-name normalization,
* `domain/categories.py` — the category taxonomy engine
  (`categorize_transaction` with its static tables),
* `analysis/reporter.py` — `generate_summary` and
  `generate_category_breakdown`,
* `analysis/dashboard_data.py` — `get_year_comparison_data`,
* `parsers/bank_parser.py` — the per-entry logic of `BankParser.parse`,
* `parsers/paypal_parser.py` — the per-row logic of `PayPalParser.parse`.

Strings are modelled as Lean `String`/`List Char`; Python float amounts are
modelled as `ℚ` (all arithmetic the code performs on them — sums, negation,
absolute value, comparison with `1000` — is exact on the values in scope);
Python `None` becomes `Option`; code that can raise is modelled in
`Except String`.

The Python code applies a handful of concrete `re.sub` substitutions.  Each
one is modelled by a dedicated matcher that reproduces the exact pattern,
including word-boundary (`\b`) semantics and the greedy/backtracking
behaviour of the optional trailing period, together with a generic
left-to-right scan-and-replace engine (`reSub`).
-/

set_option maxHeartbeats 1000000

namespace Omislisi

/-! ## Basic character/string utilities (models of Python primitives) -/

/-- Python `\s` / `str.strip()` whitespace (ASCII subset; the repository's
data contains no exotic Unicode whitespace). -/
def pyIsSpace (c : Char) : Bool :=
  c = ' ' || c = '\t' || c = '\n' || c = '\r' || c = '\x0b' || c = '\x0c'

/-- Python regex `\w` word characters (ASCII subset; counterparty strings are
ASCII once diacritics have been stripped). -/
def isWordChar (c : Char) : Bool :=
  (c.toNat ≥ 97 && c.toNat ≤ 122) || (c.toNat ≥ 65 && c.toNat ≤ 90)
    || (c.toNat ≥ 48 && c.toNat ≤ 57) || c = '_'

/-- Python `str.strip()` on a character list (both ends). -/
def pyStripL (l : List Char) : List Char :=
  ((l.dropWhile pyIsSpace).reverse.dropWhile pyIsSpace).reverse

/-- Python `str.lower()` for the character set appearing in the repository's
tables and inputs: ASCII letters plus the precomposed Latin letters used in
Slovenian names.  Identity elsewhere. -/
def pyLowerChar (c : Char) : Char :=
  if c.toNat ≥ 65 ∧ c.toNat ≤ 90 then Char.ofNat (c.toNat + 32)
  else match c with
  | 'Š' => 'š' | 'Č' => 'č' | 'Ž' => 'ž' | 'Ć' => 'ć' | 'Đ' => 'đ'
  | 'À' => 'à' | 'Á' => 'á' | 'Â' => 'â' | 'Ä' => 'ä' | 'Ã' => 'ã' | 'Å' => 'å'
  | 'È' => 'è' | 'É' => 'é' | 'Ê' => 'ê' | 'Ë' => 'ë'
  | 'Ì' => 'ì' | 'Í' => 'í' | 'Î' => 'î' | 'Ï' => 'ï'
  | 'Ò' => 'ò' | 'Ó' => 'ó' | 'Ô' => 'ô' | 'Ö' => 'ö' | 'Õ' => 'õ'
  | 'Ù' => 'ù' | 'Ú' => 'ú' | 'Û' => 'û' | 'Ü' => 'ü'
  | 'Ñ' => 'ñ' | 'Ç' => 'ç' | 'Ý' => 'ý'
  | _ => c

/-- Model of `unicodedata.normalize('NFD', ·)` followed by removal of
combining marks (category `Mn`), per character: `none` for a standalone
combining mark (removed), the base letter for the precomposed Latin letters
in scope, identity elsewhere. -/
def nfdBase? (c : Char) : Option Char :=
  if 0x300 ≤ c.toNat ∧ c.toNat ≤ 0x36F then none
  else some (match c with
  | 'š' => 's' | 'č' => 'c' | 'ž' => 'z' | 'ć' => 'c'
  | 'à' => 'a' | 'á' => 'a' | 'â' => 'a' | 'ä' => 'a' | 'ã' => 'a' | 'å' => 'a'
  | 'è' => 'e' | 'é' => 'e' | 'ê' => 'e' | 'ë' => 'e'
  | 'ì' => 'i' | 'í' => 'i' | 'î' => 'i' | 'ï' => 'i'
  | 'ò' => 'o' | 'ó' => 'o' | 'ô' => 'o' | 'ö' => 'o' | 'õ' => 'o'
  | 'ù' => 'u' | 'ú' => 'u' | 'û' => 'u' | 'ü' => 'u'
  | 'ñ' => 'n' | 'ç' => 'c' | 'ý' => 'y' | 'ÿ' => 'y'
  | _ => c)

/-- NFD-decompose and strip combining marks over a whole character list. -/
def nfdStrip (l : List Char) : List Char := l.filterMap nfdBase?

/-- `needle` matches at the head of `hay`. -/
def startsWithL : List Char → List Char → Bool
  | [], _ => true
  | _ :: _, [] => false
  | a :: as, b :: bs => a = b && startsWithL as bs

/-- Python substring containment (`needle in hay`). -/
def isSubstringL (needle : List Char) : List Char → Bool
  | [] => startsWithL needle []
  | c :: rest => startsWithL needle (c :: rest) || isSubstringL needle rest

/-- Substring containment on `String`s. -/
def containsSub (needle hay : String) : Bool :=
  isSubstringL needle.data hay.data

/-- Python `s.startswith(pre)`. -/
def pyStartsWith (s pre : String) : Bool := startsWithL pre.data s.data

/-- Python `s[:n]` (slicing by code point). -/
def strTake (s : String) (n : ℕ) : String := String.mk (s.data.take n)

/-- Python `str.split(sep)` for a single-character separator. -/
def splitOnCharL (c : Char) : List Char → List (List Char)
  | [] => [[]]
  | d :: rest =>
    let r := splitOnCharL c rest
    if d = c then [] :: r
    else match r with
      | h :: t => (d :: h) :: t
      | [] => [[d]]

/-- Python `str.lower()` on a `String`. -/
def pyLowerStr (s : String) : String := String.mk (s.data.map pyLowerChar)

/-- Python `str.strip()` on a `String`. -/
def pyStripStr (s : String) : String := String.mk (pyStripL s.data)

/-! ## A scan-and-replace engine for the concrete `re.sub` calls

A matcher is handed the character preceding the current position (`none` at
the start of the string — needed for `\b`) and the remaining input; on
success it returns the replacement text, the last character the match
consumed in the *original* string (the `\b` context for the rest of the
scan), and the unconsumed remainder.  `reSub` scans left to right exactly
like `re.sub`: try the matcher at each position, emit the replacement and
resume after the match, otherwise copy one character and advance.  All the
patterns in scope match at least one character, so a fuel of `length + 1`
always suffices. -/

def Matcher : Type := Option Char → List Char → Option (List Char × Option Char × List Char)

def reSubFuel (m : Matcher) : Nat → Option Char → List Char → List Char
  | 0, _, s => s
  | _ + 1, _, [] => []
  | fuel + 1, prev, c :: cs =>
    match m prev (c :: cs) with
    | some (repl, newPrev, rest) => repl ++ reSubFuel m fuel newPrev rest
    | none => c :: reSubFuel m fuel (some c) cs

def reSub (m : Matcher) (l : List Char) : List Char :=
  reSubFuel m (l.length + 1) none l

/-- Match a literal character sequence, returning the rest. -/
def matchLit : List Char → List Char → Option (List Char)
  | [], s => some s
  | _ :: _, [] => none
  | c :: cs, d :: ds => if c = d then matchLit cs ds else none

/-- `\b` holds before a word character iff the previous character is absent
or not a word character. -/
def notWordBefore : Option Char → Bool
  | none => true
  | some c => !isWordChar c

/-- The next character exists and is a word character. -/
def wordStart : List Char → Bool
  | [] => false
  | c :: _ => isWordChar c

/-! ### The individual patterns

Each matcher reproduces one `re.sub` pattern from the source, anchored at
the current position (the engine supplies the scan). -/

/-- `\bd\.\s*d\.\b` → `d.d.`  (counterparty_utils.py only).  Note that the
trailing `\b` sits after a period, so the match requires a word character
right after it. -/
def mDdSpace : Matcher := fun prev s =>
  if notWordBefore prev then
    match matchLit ['d', '.'] s with
    | none => none
    | some s1 =>
      let s2 := s1.dropWhile pyIsSpace
      match matchLit ['d', '.'] s2 with
      | none => none
      | some s3 =>
        if wordStart s3 then some (("d.d.").data, some '.', s3) else none
  else none

/-- `\bss\s+d\.o\.o\.` → `ss d.o.o.` -/
def mSs1 : Matcher := fun prev s =>
  if notWordBefore prev then
    match matchLit ['s', 's'] s with
    | none => none
    | some s1 =>
      let sp := s1.takeWhile pyIsSpace
      if sp.isEmpty then none
      else
        match matchLit (("d.o.o.").data) (s1.dropWhile pyIsSpace) with
        | none => none
        | some s3 => some (("ss d.o.o.").data, some '.', s3)
  else none

/-- `\bss\s+d\.o\.o\b` → `ss d.o.o.` -/
def mSs2 : Matcher := fun prev s =>
  if notWordBefore prev then
    match matchLit ['s', 's'] s with
    | none => none
    | some s1 =>
      let sp := s1.takeWhile pyIsSpace
      if sp.isEmpty then none
      else
        match matchLit (("d.o.o").data) (s1.dropWhile pyIsSpace) with
        | none => none
        | some s3 =>
          if wordStart s3 then none
          else some (("ss d.o.o.").data, some 'o', s3)
  else none

/-- One alternative of the comma-suffix group: a literal stem with an
optional (greedy) trailing period and no trailing context. -/
def commaAlt (stem : List Char) (s : List Char) : Option (List Char × Option Char × List Char) :=
  match matchLit stem s with
  | none => none
  | some s2 =>
    match s2 with
    | '.' :: s3 => some (' ' :: (stem ++ ['.']), some '.', s3)
    | _ => some (' ' :: stem, stem.getLast?, s2)

/-- `,\s*(d\.o\.o\.?|d\.d\.?|s\.p\.?|z\.b\.o\.?)` → `  \1` (a space plus the
matched group, alternatives tried left to right). -/
def mComma : Matcher := fun _ s =>
  match s with
  | ',' :: s0 =>
    let s1 := s0.dropWhile pyIsSpace
    match commaAlt (("d.o.o").data) s1 with
    | some r => some r
    | none =>
      match commaAlt (("d.d").data) s1 with
      | some r => some r
      | none =>
        match commaAlt (("s.p").data) s1 with
        | some r => some r
        | none => commaAlt (("z.b.o").data) s1
  | _ => none

/-- `\bd\.o\.o\.?\b` → `d.o.o.`  (greedy optional period; if the `\b` after
the period fails the engine backtracks to the period-less variant, whose
`\b` then sits between `o` and the period and succeeds). -/
def mDoo : Matcher := fun prev s =>
  if notWordBefore prev then
    match matchLit (("d.o.o").data) s with
    | none => none
    | some s1 =>
      match s1 with
      | '.' :: s2 =>
        if wordStart s2 then some (("d.o.o.").data, some '.', s2)
        else some (("d.o.o.").data, some 'o', s1)
      | _ =>
        if wordStart s1 then none
        else some (("d.o.o.").data, some 'o', s1)
  else none

/-- `\bd\.d\.\.?\b` → `d.d.`  (the mandatory part already ends in a period,
so both variants need a word character right after the match). -/
def mDd : Matcher := fun prev s =>
  if notWordBefore prev then
    match matchLit (("d.d.").data) s with
    | none => none
    | some s1 =>
      match s1 with
      | '.' :: s2 => if wordStart s2 then some (("d.d.").data, some '.', s2) else none
      | _ => if wordStart s1 then some (("d.d.").data, some '.', s1) else none
  else none

/-- `\bs\.p\.\.?\b` → `s.p.` -/
def mSp : Matcher := fun prev s =>
  if notWordBefore prev then
    match matchLit (("s.p.").data) s with
    | none => none
    | some s1 =>
      match s1 with
      | '.' :: s2 => if wordStart s2 then some (("s.p.").data, some '.', s2) else none
      | _ => if wordStart s1 then some (("s.p.").data, some '.', s1) else none
  else none

/-- `\bz\.b\.o\.?\b` → `z.b.o.`  (counterparty_utils.py variant: the period
is optional, so `z.b.o` at a word boundary matches). -/
def mZboU : Matcher := fun prev s =>
  if notWordBefore prev then
    match matchLit (("z.b.o").data) s with
    | none => none
    | some s1 =>
      match s1 with
      | '.' :: s2 =>
        if wordStart s2 then some (("z.b.o.").data, some '.', s2)
        else some (("z.b.o.").data, some 'o', s1)
      | _ =>
        if wordStart s1 then none
        else some (("z.b.o.").data, some 'o', s1)
  else none

/-- `\bz\.b\.o\.\.?\b` → `z.b.o.`  (categories.py variant: the first
trailing period is mandatory, so the match needs a word character after
it). -/
def mZboC : Matcher := fun prev s =>
  if notWordBefore prev then
    match matchLit (("z.b.o.").data) s with
    | none => none
    | some s1 =>
      match s1 with
      | '.' :: s2 => if wordStart s2 then some (("z.b.o.").data, some '.', s2) else none
      | _ => if wordStart s1 then some (("z.b.o.").data, some '.', s1) else none
  else none

/-- `\.{2,}` → `.` -/
def mDots : Matcher := fun _ s =>
  match s with
  | '.' :: '.' :: _ =>
    let run := s.takeWhile (fun c => c = '.')
    some (['.'], some '.', s.drop run.length)
  | _ => none

/-- `\s+` → a single space. -/
def mWs : Matcher := fun _ s =>
  match s with
  | c :: _ =>
    if pyIsSpace c then
      let run := s.takeWhile pyIsSpace
      some ([' '], some (run.getLastD ' '), s.drop run.length)
    else none
  | [] => none

/-! ## Counterparty normalization -/

/-- Lower-case, NFD-decompose and strip combining marks — the first steps of
both normalization copies. -/
def preNorm (s : String) : List Char := nfdStrip (s.data.map pyLowerChar)

/-- The substitution chain of `normalize_counterparty_name`
(counterparty_utils.py lines 28-43), after `preNorm`. -/
def utilsChainL (l : List Char) : List Char :=
  pyStripL (reSub mWs (reSub mDots (reSub mZboU (reSub mSp (reSub mDd (reSub mDoo
    (reSub mComma (reSub mSs2 (reSub mSs1 (reSub mDdSpace l))))))))))

/-- The inline substitution chain of `categorize_transaction`
(categories.py lines 656-669): same as `utilsChainL` but without the
`d. d.` rule and with the `mZboC` variant of the `z.b.o.` rule. -/
def catChainL (l : List Char) : List Char :=
  pyStripL (reSub mWs (reSub mDots (reSub mZboC (reSub mSp (reSub mDd (reSub mDoo
    (reSub mComma (reSub mSs2 (reSub mSs1 l)))))))))

/-- The guard of the CTRP/IN-FIT aliasing step. -/
def aliasHit (l : List Char) : Bool :=
  isSubstringL (("ctrp").data) l || isSubstringL (("in-fit").data) l
    || isSubstringL (("infit").data) l

/-- `re.sub(r'.*(ctrp|in-fit|infit).*', 'in-fit d.o.o.', ·)` under the guard
`aliasHit`: `.` does not cross newlines, so each newline-free segment that
contains one of the tokens is replaced wholesale by the canonical form. -/
def aliasStep (l : List Char) : List Char :=
  if aliasHit l then
    (List.intersperse ['\n']
      ((splitOnCharL '\n' l).map
        (fun line => if aliasHit line then ("in-fit d.o.o.").data else line))).flatten
  else l

/-- `normalize_counterparty_name` (counterparty_utils.py). -/
def normalize_counterparty_name (s : String) : String :=
  String.mk (aliasStep (utilsChainL (preNorm s)))

/-- The counterparty normalization computed inline by
`categorize_transaction` (categories.py lines 650-669). -/
def categorizeNormalize (s : String) : String :=
  String.mk (catChainL (preNorm s))


/-! ## Category taxonomy engine (`domain/categories.py`) -/

/-- Association-list lookup modelling Python `dict[k]` / `k in dict`
(the embedded tables have no duplicate keys). -/
def lookupA {β : Type} : List (String × β) → String → Option β
  | [], _ => none
  | (k0, v) :: rest, k => if k0 = k then some v else lookupA rest k

/-- `ACCOUNT_CATEGORIES`. -/
def ACCOUNT_CATEGORIES : List (String × String) :=
  [("SI56290000059820339", "salary:students")]

/-- `COUNTERPARTY_CATEGORIES`, in dict insertion order. -/
def COUNTERPARTY_CATEGORIES : List (String × String) := [
  ("rs prehodni davcni podracun", "taxes:advance"),
  ("prehodni davcni podracun", "taxes:advance"),
  ("prehodni davcni podracun - proracun", "taxes"),
  ("pdp - proracun drzave", "taxes"),
  ("furs", "taxes"),
  ("furs - prehodni podracun", "taxes:advance"),
  ("prehodni davcni podracun - zpiz", "social_security:pension_disability"),
  ("prehodni davcni podracun - zzzs", "social_security:health"),
  ("mitja pritrznik", "salary:founders"),
  ("martin korenjak", "salary:founders"),
  ("ss d.o.o.", "salary:students"),
  ("ss", "salary:students"),
  ("studentski servis", "salary:students"),
  ("studentski servis d.o.o.", "salary:students"),
  ("s. d.o.o.", "salary:students"),
  ("tjasa fatur", "salary:employees"),
  ("ana sinigoj", "salary:employees"),
  ("tomaz plesec", "salary:contractual_sales"),
  ("sanson sales", "salary:contractual_sales"),
  ("sanson sales tomaz plesec s.p.", "salary:contractual_sales"),
  ("valuna", "salary:contractual_sales"),
  ("valuna ajda hvastija s.p.", "salary:contractual_sales"),
  ("ajda hvastija", "salary:contractual_sales"),
  ("klemen bogataj", "salary:contractual_sales"),
  ("klemen bogataj s.p.", "salary:contractual_sales"),
  ("nejc pus", "salary:contractual_sales"),
  ("nejc pus s.p.", "salary:contractual_sales"),
  ("in-fit", "professional_services:accounting"),
  ("in-fit d.o.o.", "professional_services:accounting"),
  ("ctrp", "professional_services:accounting"),
  ("društvo ctrp maribor", "professional_services:accounting"),
  ("društvo ctrp maribor so. p.", "professional_services:accounting"),
  ("notarka branka ivanusa", "professional_services:legal"),
  ("em-er", "professional_services:legal"),
  ("em-er matjaz rambaher", "professional_services:legal"),
  ("em-er matjaz rambaher s.p.", "professional_services:legal"),
  ("314", "salary:contractual_programming"),
  ("314 d.o.o.", "salary:contractual_programming"),
  ("foreach labs", "salary:contractual_programming"),
  ("foreach labs d.o.o.", "salary:contractual_programming"),
  ("smartads", "salary:contractual_marketing"),
  ("smartads neza bizjak s.p.", "salary:contractual_marketing"),
  ("orelia", "salary:contractual_design"),
  ("orelia solutions", "salary:contractual_design"),
  ("orelia solutions masa orel s.p.", "salary:contractual_design"),
  ("activecampaign", "software:crm"),
  ("activecampaign llc", "software:crm"),
  ("mailchimp", "software:email"),
  ("bradstreet", "software:credit_reporting"),
  ("ms3", "software:sms"),
  ("ms3 d.o.o.", "software:sms"),
  ("posta slovenije", "utilities:postal"),
  ("posta slovenije d.o.o.", "utilities:postal"),
  ("epps", "utilities:postal"),
  ("epps d.o.o.", "utilities:postal"),
  ("a1", "utilities:mobile"),
  ("a1 slovenija", "utilities:mobile"),
  ("a1 slovenija, d. d.", "utilities:mobile"),
  ("kikštarter", "offices:coworking"),
  ("kikstarter", "offices:coworking"),
  ("zadruga kikštarter center", "offices:coworking"),
  ("zadruga kikštarter center z.b.o.", "offices:coworking"),
  ("abc accelerator", "offices:coworking"),
  ("abc accelerator d.o.o.", "offices:coworking"),
  ("btc", "offices:coworking"),
  ("btc d.d.", "offices:coworking"),
  ("contabo", "software:hosting"),
  ("contabo gmbh", "software:hosting"),
  ("infosplet", "software:hosting"),
  ("infosplet, d.o.o.", "software:hosting"),
  ("avant", "software:hosting"),
  ("stripe", "bank_fees"),
  ("zapier", "software"),
  ("zapier, inc.", "software"),
  ("ahrefs", "software:seo"),
  ("lovable", "software:automation"),
  ("canva", "software:design"),
  ("openai", "software:ai"),
  ("claude", "software:ai"),
  ("anthropic", "software:ai"),
  ("jasper", "software:ai"),
  ("github", "software:development_tools"),
  ("github, inc.", "software:development_tools"),
  ("cursor", "software:development_tools"),
  ("circleci", "software:development_tools"),
  ("shutterstock", "marketing:stock_images"),
  ("shutterstock inc.", "marketing:stock_images"),
  ("meta platforms", "marketing:facebook_ads"),
  ("meta platforms, inc.", "marketing:facebook_ads"),
  ("facebk", "marketing:facebook_ads"),
  ("seopro", "marketing:seo"),
  ("seopro igor bajsic", "marketing:seo"),
  ("seopro igor bajsic s.p.", "marketing:seo"),
  ("eggmedia", "marketing:agencies"),
  ("eggmedia d.o.o.", "marketing:agencies"),
  ("pro plus", "marketing:agencies"),
  ("pro plus d.o.o.", "marketing:agencies"),
  ("4future", "marketing:agencies"),
  ("4future dgt agency", "marketing:agencies"),
  ("4future dgt agency d.o.o.", "marketing:agencies"),
  ("termin informatika", "marketing:agencies"),
  ("termin informatika d.o.o.", "marketing:agencies"),
  ("mobileshop", "equipment"),
  ("mobileshop.eu", "equipment"),
  ("amzn", "amazon"),
  ("amazon", "amazon"),
  ("zzzs", "benefits"),
  ("zavod za zaposlovanje", "benefits"),
  ("generali sklad", "benefits"),
  ("media24", "other:media"),
  ("media24 d.o.o.", "other:media"),
  ("tsmedia", "other:media"),
  ("tsmedia d.o.o.", "other:media"),
  ("kip kop", "other:media"),
  ("kip kop d.o.o.", "other:media"),
  ("cre8", "other:media"),
  ("cre8 d.o.o.", "other:media"),
  ("computeruniverse", "other:hardware"),
  ("computeruniverse gmbh", "other:hardware"),
  ("remarkable", "other:hardware"),
  ("remarkable operations", "other:hardware"),
  ("eu.store", "other:hardware"),
  ("eu.store.ui.com", "other:hardware"),
  ("senetic", "other:hardware"),
  ("airbnb", "other:travel"),
  ("airbnb payments", "other:travel"),
  ("bestero", "other:travel"),
  ("eventim", "other:events"),
  ("mojekarte", "other:events"),
  ("bauhaus", "other:furniture"),
  ("pisarniški stoli", "other:furniture"),
  ("pisarniški stoli pivk", "other:furniture"),
  ("elevenlabs", "other:ai_services"),
  ("brevilabs", "other:ai_services"),
  ("scrap.io", "other:ai_services")
]

/-- `EXPENSE_CATEGORIES`, in dict insertion order. -/
def EXPENSE_CATEGORIES : List (String × List String) := [
  ("bank_fees", [
    "fee", "bank fee", "transaction fee", "service charge", "payment processing fee",
    "credit card", "credit card payment",
    "provizija", "prilivna provizija", "odlivna provizija",
    "vodenje računa", "vodenje poslovnega računa", "uporabnina", "banking fee",
    "dh-mobilni", "dh-poslovni", "dh-poslovni",
    "kreditna kartica",
    "varnostni sms"]),
  ("software", [
    "software", "subscription", "license", "saas", "hosting", "cloud",
    "programiranje", "programska oprema",
    "contabo", "microsoft", "adobe", "paypal",
    "github", "aws", "azure", "digitalocean", "linode",
    "google gsuite", "google*gsuite", "google cloud", "google workspace", "gsuite",
    "openai", "sentry", "circleci", "circleci.com"]),
  ("professional_services", [
    "legal", "accounting", "consulting", "professional", "lawyer", "attorney",
    "računovodstvo", "računovodski", "svetovanje", "odvetnik", "pravnik",
    "računovodski studio", "svetovanje", "plesec", "tomaž plesec",
    "ajda hvastija", "valuna",
    "račun št."]),
  ("office", [
    "office supplies", "stationery", "printer", "paper", "postage", "mail",
    "poštne storitve", "pošta", "papir", "tiskalnik"]),
  ("utilities", [
    "electricity", "water", "internet", "phone", "utility", "gsm",
    "elektrika", "voda", "internet", "telefon", "gsm storitve", "mobilne storitve"]),
  ("taxes", [
    "tax", "vat", "income tax", "corporate tax", "profit tax",
    "davek", "davk", "ddv", "plačilo ddv",
    "dohodnina",
    "davek od dobička", "davek na dohodek", "davek od dohodka pravnih oseb",
    "akontacija davka", "akontacija ddpo",
    "plačilo davka", "obračun davka"]),
  ("social_security", [
    "prispevek za piz", "prispevki za piz",
    "prispevek za ppd",
    "prispevek za ppd in pb",
    "prispevek za zz", "prispevek za zzzs",
    "prispevki za zdravstvo",
    "prispevek za pb",
    "prispevek za stv",
    "prispevki za starševsko", "prispevki za starsevsko",
    "prispevek za zap",
    "prispevki za zaposlovanje",
    "prispevek za do"]),
  ("salary", [
    "salary", "wage", "payroll", "employee", "bonus", "vacation",
    "plača", "placa", "plaèa", "izplačilo", "zaposleni", "regres", "bonus", "dopust"]),
  ("marketing", [
    "advertising", "marketing", "promotion", "social media", "facebook", "ads",
    "google ads", "google*ads", "facebk",
    "seo",
    "oglaševanje", "oglasevanje", "marketing", "promocija", "reklama"]),
  ("loans", [
    "loan repayment", "loan payment", "borrowing",
    "vracilo posojila", "odplačilo posojila"]),
  ("travel", [
    "travel", "hotel", "flight", "transport", "fuel", "taxi", "uber",
    "potovanje", "hotel", "prevoz", "gorivo", "taksi", "letalska", "letalo"]),
  ("meals", [
    "restaurant", "food", "lunch", "dinner", "cafe", "coffee",
    "restavracija", "hrana", "kosilo", "večerja", "kavarna", "kava"]),
  ("equipment", [
    "equipment", "hardware", "computer", "monitor", "laptop", "printer",
    "cell phone", "mobile phone", "smartphone", "mobileshop",
    "oprema", "strojna oprema", "računalnik", "monitor", "prenosnik"]),
  ("amazon", [
    "amazon", "amzn", "amznbusiness", "amzn mktp"]),
  ("compensations:expenses", []),
  ("other", [])
]

/-- `INCOME_CATEGORIES`, in dict insertion order. -/
def INCOME_CATEGORIES : List (String × List String) := [
  ("loans", [
    "posojilo", "posojilo omisli.si"]),
  ("transfers", [
    "transfer", "prenos", "saldacija",
    "prenos sredstev", "saldacija", "trr", "transfer", "sberbank"]),
  ("benefits", [
    "benefit", "compensation", "grant", "subsidy",
    "zzzs",
    "zavod za zdravstveno zavarovanje",
    "zavod za zaposlovanje",
    "generali sklad",
    "nadomestilo", "subvencija", "dodatek"]),
  ("refund", [
    "refund", "return", "reimbursement", "tax refund",
    "vračilo", "preplačilo", "povrnitev", "refund", "furs", "rs mf furs",
    "izterjava"]),
  ("compensations:income", [
    "projekt", "project", "custom", "enterprise"]),
  ("sales", [
    "sale", "revenue", "payment", "invoice", "income", "earnings",
    "subscription", "yearly", "monthly", "quarterly", "tri-monthly",
    "plačilo", "takojšnje plačilo", "priliv", "račun", "računa",
    "št računa", "paket", "premium", "letni paket", "objava v imeniku",
    "naročnina", "letna", "mesečna", "četrtletna",
    "d.o.o.", "s.p.", "sp", "doo",
    "-pro", "-oms", "-plč",
    "sent from revolut", "revolut", "stripe",
    "2021-", "2022-", "2023-", "2024-", "2025-", "2026-"]),
  ("other", [])
]

/-! ### Counterparty-table matching (categories.py lines 672-696) -/

/-- `re.search(r'\b<key>\b', hay)` for an alphanumeric key: the key occurs
somewhere in `hay` with word boundaries on both sides.  (All table keys of
length ≤ 3 are alphanumeric, so the boundaries reduce to the neighbours not
being word characters.) -/
def wbSearchAux (key : List Char) : Option Char → List Char → Bool
  | prev, [] =>
    notWordBefore prev &&
      (match matchLit key [] with
       | some rest => !wordStart rest
       | none => false)
  | prev, c :: cs =>
    (notWordBefore prev &&
      (match matchLit key (c :: cs) with
       | some rest => !wordStart rest
       | none => false))
    || wbSearchAux key (some c) cs

def wbSearch (key hay : String) : Bool := wbSearchAux key.data none hay.data

/-- `re.search(r'\b<escaped key>', hay)`: the key occurs with a word
boundary before it (keys in scope start with a word character). -/
def wbHeadSearchAux (key : List Char) : Option Char → List Char → Bool
  | prev, [] => notWordBefore prev && (matchLit key []).isSome
  | prev, c :: cs =>
    (notWordBefore prev && (matchLit key (c :: cs)).isSome)
    || wbHeadSearchAux key (some c) cs

def wbHeadSearch (key hay : String) : Bool := wbHeadSearchAux key.data none hay.data

/-- The key contains a legal-suffix phrase (categories.py line 685). -/
def hasLegalSuffix (key : String) : Bool :=
  containsSub " d.o.o." key || containsSub " d.d." key || containsSub " s.p." key

/-- One table entry matches the normalized counterparty
(categories.py lines 676-695). -/
def keyMatches (key cn : String) : Bool :=
  if key = cn then true
  else if key.length ≤ 3 then wbSearch key cn
  else if hasLegalSuffix key then wbHeadSearch key cn
  else isSubstringL key.data cn.data

/-! ### Subcategory resolvers (categories.py lines 437-615) -/

/-- `_get_taxes_subcategory`. -/
def get_taxes_subcategory (dl : String) : String :=
  if containsSub "plačilo ddv" dl || containsSub "ddv" dl then "taxes:vat"
  else if containsSub "akontacija ddpo" dl || containsSub "akontacija davka" dl then "taxes:advance"
  else if containsSub "davek od dobička" dl || containsSub "davek na dohodek" dl
      || containsSub "davek od dohodka pravnih oseb" dl then "taxes:corporate_tax"
  else if containsSub "dohodnina" dl then "taxes:income_tax"
  else "taxes"

/-- `_get_social_security_subcategory`. -/
def get_social_security_subcategory (dl : String) : String :=
  if containsSub "prispevek za do" dl then "social_security:long_term_care"
  else if containsSub "prispevek za stv" dl || containsSub "prispevki za starševsko" dl
      || containsSub "prispevki za starsevsko" dl then "social_security:parental"
  else if containsSub "prispevek za zap" dl || containsSub "prispevki za zaposlovanje" dl then
    "social_security:unemployment"
  else if containsSub "prispevek za ppd in pb" dl then "social_security:pension_disability"
  else if containsSub "prispevek za pb" dl && !containsSub "ppd" dl then "social_security:work_injury"
  else if containsSub "prispevek za zz" dl || containsSub "prispevek za zzzs" dl
      || containsSub "prispevki za zdravstvo" dl then "social_security:health"
  else if containsSub "prispevek za piz" dl || containsSub "prispevki za piz" dl
      || containsSub "prispevek za ppd" dl then "social_security:pension_disability"
  else "social_security"

/-- `_get_professional_services_subcategory`.  The counterparty argument is
`Option String` (Python default `None`), and the Python truthiness test
`if counterparty_normalized:` also rejects the empty string. -/
def get_professional_services_subcategory (dl : String) (cn : Option String) : String :=
  let fromCp : Option String :=
    match cn with
    | some n =>
      if n ≠ "" then
        if containsSub "in-fit" n || containsSub "ctrp" n then
          some "professional_services:accounting"
        else if containsSub "notarka" n || (containsSub "em-er" n && containsSub "rambaher" n) then
          some "professional_services:legal"
        else none
      else none
    | none => none
  match fromCp with
  | some r => r
  | none =>
    if containsSub "računovodstvo" dl || containsSub "racunovodstvo" dl then
      "professional_services:accounting"
    else if containsSub "pravno" dl || containsSub "notarka" dl || containsSub "odvetnik" dl
        || containsSub "pravnik" dl then "professional_services:legal"
    else "professional_services"

/-- `_get_marketing_subcategory`. -/
def get_marketing_subcategory (dl : String) (cn : Option String) : String :=
  let fromCp : Option String :=
    match cn with
    | some n =>
      if n ≠ "" then
        if containsSub "shutterstock" n then some "marketing:stock_images"
        else if containsSub "meta" n || containsSub "facebk" n then some "marketing:facebook_ads"
        else if (containsSub "google" n && containsSub "ads" n) || containsSub "googleadwordseu" n then
          some "marketing:google_ads"
        else if containsSub "seopro" n then some "marketing:seo"
        else if ["eggmedia", "pro plus", "4future", "termin informatika"].any
            (fun a => containsSub a n) then some "marketing:agencies"
        else none
      else none
    | none => none
  match fromCp with
  | some r => r
  | none =>
    if containsSub "google" dl && (containsSub "ads" dl || containsSub "adwordseu" dl) then
      "marketing:google_ads"
    else if containsSub "facebk" dl || (containsSub "facebook" dl && containsSub "ads" dl) then
      "marketing:facebook_ads"
    else if containsSub "seo" dl then "marketing:seo"
    else if containsSub "shutterstock" dl then "marketing:stock_images"
    else "marketing"

/-- `_get_other_subcategory`. -/
def get_other_subcategory (dl : String) (cn : Option String) : String :=
  let fromCp : Option String :=
    match cn with
    | some n =>
      if n ≠ "" then
        if ["media24", "tsmedia", "kip kop", "cre8"].any (fun a => containsSub a n) then
          some "other:media"
        else if ["computeruniverse", "remarkable", "eu.store", "senetic"].any
            (fun a => containsSub a n) then some "other:hardware"
        else if ["airbnb", "bestero"].any (fun a => containsSub a n) then some "other:travel"
        else if ["eventim", "mojekarte"].any (fun a => containsSub a n) then some "other:events"
        else if ["bauhaus", "pisarniški stoli"].any (fun a => containsSub a n) then
          some "other:furniture"
        else if ["elevenlabs", "brevilabs", "scrap.io"].any (fun a => containsSub a n) then
          some "other:ai_services"
        else none
      else none
    | none => none
  match fromCp with
  | some r => r
  | none =>
    if ["media", "oglaševanje", "reklama"].any (fun w => containsSub w dl) then "other:media"
    else if ["airbnb", "hotel", "travel", "bestero"].any (fun w => containsSub w dl) then
      "other:travel"
    else if ["eventim", "mojekarte", "vstopnica", "ticket"].any (fun w => containsSub w dl) then
      "other:events"
    else if ["tisk", "digitalni tisk", "print", "printing"].any (fun w => containsSub w dl) then
      "other:printing"
    else if ["bauhaus", "stol", "furniture", "pisarniški"].any (fun w => containsSub w dl) then
      "other:furniture"
    else if ["elevenlabs", "brevilabs", "scrap.io", "ai"].any (fun w => containsSub w dl) then
      "other:ai_services"
    else if ["computeruniverse", "remarkable", "hardware", "equipment"].any
        (fun w => containsSub w dl) then "other:hardware"
    else "other"

/-- `_get_sales_subcategory`. -/
def get_sales_subcategory (dl : String) (cn : Option String) : String :=
  if (match cn with | some n => n ≠ "" && containsSub "stripe" n | none => false) then
    "sales:stripe"
  else if containsSub "stripe" dl then "sales:stripe"
  else "sales:invoice"

/-! ### `categorize_transaction` -/

/-- `sorted(keywords, key=len, reverse=True)` — Python's stable sort,
descending by length (insertion with ties resolved in favour of the earlier
element preserves the original relative order of equal-length keywords). -/
def sortKwLenDesc (ks : List String) : List String :=
  List.insertionSort (fun a b => b.length ≤ a.length) ks

/-- The inner keyword loop: some keyword (scanned longest-first) occurs in
the lower-cased description.  The loop body returns the same category for
every keyword, so only the existence of a hit is observable. -/
def kwHit (dl : String) (ks : List String) : Bool :=
  (sortKwLenDesc ks).any (fun k => containsSub k dl)

/-- The account-override step (categories.py lines 640-647): the category
the step returns, if any.  `account and account in ACCOUNT_CATEGORIES`:
Python truthiness rejects `None` and the empty string (the latter is not a
table key anyway). -/
def accountHit (account : Option String) (ty : String) : Option String :=
  match account with
  | some a =>
    if a ≠ "" then
      match lookupA ACCOUNT_CATEGORIES a with
      | some cat => if ty = "income" ∧ pyStartsWith cat "salary" then none else some cat
      | none => none
    else none
  | none => none

/-- The normalized counterparty (categories.py lines 650-669): computed only
when `counterparty` is truthy, else `None`. -/
def normCp (counterparty : Option String) : Option String :=
  match counterparty with
  | some c => if c ≠ "" then some (categorizeNormalize c) else none
  | none => none

/-- The `COUNTERPARTY_CATEGORIES` loop (categories.py lines 675-737) with
its type-consistency filters (`continue`) and special cases, over the table
in insertion order.  Returns the loop's returned category, if any. -/
def counterpartyLoopGo (desc ty cn : String) : List (String × String) → Option String
  | [] => none
  | (key, cat) :: rest =>
    if keyMatches key cn then
      if ty = "income" ∧ pyStartsWith cat "salary" then counterpartyLoopGo desc ty cn rest
      else if ty = "expense" ∧ cat = "benefits" then counterpartyLoopGo desc ty cn rest
      else if cn ≠ "" ∧ containsSub "stripe" cn ∧ ty = "income" then some "sales:stripe"
      else if cn ≠ "" ∧ containsSub "stripe" cn ∧ ty = "expense" ∧ cat = "bank_fees" then some cat
      else if ty = "income" ∧ cat = "bank_fees" then counterpartyLoopGo desc ty cn rest
      else if desc ≠ "" ∧ cat = "taxes:advance" then
        some (if containsSub "prispevek" (pyLowerStr desc) || containsSub "prispevki" (pyLowerStr desc)
              then get_social_security_subcategory (pyLowerStr desc) else cat)
      else if desc ≠ "" ∧ cat = "taxes" then some (get_taxes_subcategory (pyLowerStr desc))
      else if desc ≠ "" ∧ cat = "social_security" then
        some (get_social_security_subcategory (pyLowerStr desc))
      else if desc ≠ "" ∧ cat = "professional_services" then
        some (get_professional_services_subcategory (pyLowerStr desc) (some cn))
      else if desc ≠ "" ∧ cat = "marketing" then
        some (get_marketing_subcategory (pyLowerStr desc) (some cn))
      else if desc ≠ "" ∧ cat = "other" then
        some (get_other_subcategory (pyLowerStr desc) (some cn))
      else some cat
    else counterpartyLoopGo desc ty cn rest

/-- The whole counterparty step (guarded by `if counterparty:`). -/
def scanResult (desc ty : String) (counterparty : Option String) : Option String :=
  match normCp counterparty with
  | some cn => counterpartyLoopGo desc ty cn COUNTERPARTY_CATEGORIES
  | none => none

/-- `amount is not None and amount > b`. -/
def amtGT (amount : Option ℚ) (b : ℚ) : Bool :=
  match amount with
  | some a => decide (b < a)
  | none => false

/-- `amount is not None and abs(amount) > b`. -/
def amtAbsGT (amount : Option ℚ) (b : ℚ) : Bool :=
  match amount with
  | some a => decide (b < |a|)
  | none => false

/-- The income non-sales scan (categories.py lines 750-758), over the fixed
category order `loans, transfers, benefits, refund`. -/
def nonSalesScanGo (dl : String) : List String → Option String
  | [] => none
  | c :: rest =>
    match lookupA INCOME_CATEGORIES c with
    | some ks => if kwHit dl ks then some c else nonSalesScanGo dl rest
    | none => nonSalesScanGo dl rest

def nonSalesScan (dl : String) : Option String :=
  nonSalesScanGo dl ["loans", "transfers", "benefits", "refund"]

/-- The large-deal always-sales allow-list (categories.py lines 765-770):
`if counterparty_normalized:` truthiness plus substring containment of any
entry. -/
def salesOnlyCounterparties : List String :=
  ["ss d.o.o.", "ss", "studentski servis", "optispin d.o.o.", "optispin"]

def largeDealAllowHit : Option String → Bool
  | some n => n ≠ "" && salesOnlyCounterparties.any (fun k => containsSub k n)
  | none => false

/-- The refund-keyword test of the expense compensations branch
(categories.py lines 782-783). -/
def refundKwHit (dl : String) : Bool :=
  ["vračilo", "vracilo", "preplačilo", "preplacilo", "refund", "compensation"].any
    (fun k => containsSub k dl)

/-- The general category loop (categories.py lines 786-806).  The income
path always returns earlier, so this loop only ever runs over
`EXPENSE_CATEGORIES`; `other` is skipped. -/
def expenseScanGo (dl : String) (cn : Option String) : List (String × List String) → Option String
  | [] => none
  | (cat, ks) :: rest =>
    if cat = "other" then expenseScanGo dl cn rest
    else if kwHit dl ks then
      some (if cat = "taxes" then get_taxes_subcategory dl
            else if cat = "social_security" then get_social_security_subcategory dl
            else if cat = "professional_services" then get_professional_services_subcategory dl cn
            else if cat = "marketing" then get_marketing_subcategory dl cn
            else cat)
    else expenseScanGo dl cn rest

/-- The description-based phase of `categorize_transaction`
(categories.py lines 739-812): everything after the account and
counterparty steps have declined to return. -/
def descPhase (desc ty : String) (amount : Option ℚ) (cn : Option String) : String :=
  if desc = "" then "other"
  else
    let dl := pyLowerStr desc
    if ty = "income" then
      match nonSalesScan dl with
      | some cat => cat
      | none =>
        if amtGT amount 1000 then
          if largeDealAllowHit cn then get_sales_subcategory dl cn
          else "compensations:income"
        else get_sales_subcategory dl cn
    else
      if ty = "expense" ∧ amtAbsGT amount 1000 ∧ refundKwHit dl then "compensations:expenses"
      else
        match expenseScanGo dl cn EXPENSE_CATEGORIES with
        | some cat => cat
        | none => if ty = "expense" then get_other_subcategory dl cn else "other"

/-- `categorize_transaction` (categories.py lines 618-812). -/
def categorize_transaction (description transaction_type : String)
    (amount : Option ℚ := none) (counterparty : Option String := none)
    (account : Option String := none) : String :=
  match accountHit account transaction_type with
  | some cat => cat
  | none =>
    match scanResult description transaction_type counterparty with
    | some cat => cat
    | none => descPhase description transaction_type amount (normCp counterparty)

/-! ## Reporting engine (`analysis/reporter.py`) -/

/-- The transaction fields the reporting/dashboard functions access.  The
Python records are dicts; `type` is a reserved word in Lean, hence `type_`. -/
structure RTxn where
  date : String := ""
  type_ : String
  amount : ℚ
  category : String := ""
deriving Repr, DecidableEq

/-- The summary dict built by `generate_summary`.  The empty-input branch
returns a dict *without* the `income_count`/`expense_count` keys; key
presence is modelled by `Option`. -/
structure Summary where
  total_income : ℚ
  total_expenses : ℚ
  net : ℚ
  transaction_count : ℕ
  income_count : Option ℕ
  expense_count : Option ℕ
deriving Repr, DecidableEq

/-- `generate_summary` (reporter.py lines 8-43). -/
def generate_summary (ts : List RTxn) : Summary :=
  if ts.isEmpty then
    { total_income := 0, total_expenses := 0, net := 0, transaction_count := 0,
      income_count := none, expense_count := none }
  else
    let income_df := ts.filter (fun t => t.type_ == "income")
    let expense_df := ts.filter (fun t => t.type_ == "expense")
    let income := (income_df.map (fun t => t.amount)).sum
    let expenses := |(expense_df.map (fun t => t.amount)).sum|
    { total_income := income, total_expenses := expenses, net := income - expenses,
      transaction_count := ts.length,
      income_count := some income_df.length, expense_count := some expense_df.length }

/-- A tag sub-entry of the category breakdown. -/
structure BTag where
  total : ℚ
  count : ℕ
deriving Repr, DecidableEq

/-- A breakdown entry: `total`, `count`, and — only for entries created by
the tagged branch — a `tags` sub-dict (key presence again as `Option`). -/
structure BEntry where
  total : ℚ
  count : ℕ
  tags : Option (List (String × BTag))
deriving Repr, DecidableEq

/-- Python `dict[k] = v`: replace in place if the key exists, else append. -/
def setA {β : Type} : List (String × β) → String → β → List (String × β)
  | [], k, v => [(k, v)]
  | (k0, v0) :: rest, k, v =>
    if k0 = k then (k0, v) :: rest else (k0, v0) :: setA rest k v

/-- `pandas.unique`: distinct values in order of first occurrence. -/
def uniqueFirstGo (seen : List String) : List String → List String
  | [] => []
  | c :: rest =>
    if c ∈ seen then uniqueFirstGo seen rest
    else c :: uniqueFirstGo (c :: seen) rest

def uniqueFirst (l : List String) : List String := uniqueFirstGo [] l

/-- `category.split(":", 1)` (only used when a colon is present). -/
def splitColon1 (s : String) : String × String :=
  let pre := s.data.takeWhile (fun c => c ≠ ':')
  (String.mk pre, String.mk ((s.data.drop pre.length).drop 1))

def hasColon (s : String) : Bool := s.data.contains ':'

/-- Sum of amounts of the transactions in category `c`. -/
def catTotal (ts : List RTxn) (c : String) : ℚ :=
  ((ts.filter (fun t => t.category == c)).map (fun t => t.amount)).sum

/-- Number of transactions in category `c`. -/
def catCount (ts : List RTxn) (c : String) : ℕ :=
  (ts.filter (fun t => t.category == c)).length

/-- One iteration of the `generate_category_breakdown` loop
(reporter.py lines 65-97) for one distinct category value. -/
def processCat (ts : List RTxn) (bd : List (String × BEntry)) (c : String) :
    List (String × BEntry) :=
  let s := catTotal ts c
  let n := catCount ts c
  if hasColon c then
    let p := splitColon1 c
    match lookupA bd p.1 with
    | none =>
      -- the base bucket is initialized to zero with an empty tags dict,
      -- then accumulated and the tag entry stored
      setA bd p.1 { total := s, count := n, tags := some (setA [] p.2 ⟨s, n⟩) }
    | some e =>
      let e1 : BEntry := { total := e.total + s, count := e.count + n, tags := e.tags }
      let tags := e1.tags.getD []
      setA bd p.1 { e1 with tags := some (setA tags p.2 ⟨s, n⟩) }
  else
    setA bd c { total := s, count := n, tags := none }

/-- `generate_category_breakdown` (reporter.py lines 46-99). -/
def generate_category_breakdown (ts : List RTxn) : List (String × BEntry) :=
  if ts.isEmpty then []
  else (uniqueFirst (ts.map (fun t => t.category))).foldl (processCat ts) []

/-! ## Year-over-year comparison (`analysis/dashboard_data.py` lines 279-357)

The Python code raises `IndexError`/`ValueError` on malformed date strings
(`tx['date'][:7].split('-')[1]` and `int(month_num)`), so the embedding runs
in `Except String`. -/

/-- Model of Python `int(·)` on the (non-negative, all-digit) strings in
scope. -/
def pyDigitsToNat? (l : List Char) : Option ℕ :=
  if l.isEmpty then none
  else if l.all Char.isDigit then
    some (l.foldl (fun acc c => acc * 10 + (c.toNat - 48)) 0)
  else none

/-- `f"{int(month_num):02d}"`. -/
def padMonth (mn : String) : Except String String :=
  match pyDigitsToNat? mn.data with
  | some n => .ok (if n < 10 then "0" ++ toString n else toString n)
  | none => .error "ValueError: invalid literal for int"

/-- The month-collection loop (dashboard_data.py lines 291-297) over the
current-year transactions: for each transaction with a truthy date whose
7-character prefix starts with the year, record `split('-')[1]` of that
prefix. -/
def collectMonths (cys : String) : List RTxn → Except String (List String)
  | [] => .ok []
  | t :: rest =>
    if t.date ≠ "" then
      let m7 := strTake t.date 7
      if pyStartsWith m7 cys then
        match (splitOnCharL '-' m7.data).get? 1 with
        | some mn => do
          let r ← collectMonths cys rest
          .ok (String.mk mn :: r)
        | none => .error "IndexError: list index out of range"
      else collectMonths cys rest
    else collectMonths cys rest

/-- Lexicographic string comparison (Python `<` on strings, by code point). -/
def lexLtL : List Char → List Char → Bool
  | [], [] => false
  | [], _ :: _ => true
  | _ :: _, [] => false
  | a :: as, b :: bs => if a < b then true else if b < a then false else lexLtL as bs

def strLe (a b : String) : Bool := !lexLtL b.data a.data

/-- `sorted(·)` of a set of strings: the distinct values in ascending
order.  (The Python set is unordered; sorting the distinct values in
first-occurrence order yields the same ascending list.) -/
def sortedSet (l : List String) : List String :=
  List.insertionSort (fun a b => strLe a b = true) (uniqueFirst l)

/-- The per-month comparison loop (dashboard_data.py lines 304-325):
returns the accumulated current-year transactions, previous-year
transactions, and the `monthly_comparison` association list, in month
order. -/
def mcLoop (ts allCur : List RTxn) (cys pys : String) :
    List String → Except String (List RTxn × List RTxn × List (String × (Option Summary × Option Summary)))
  | [] => .ok ([], [], [])
  | mn :: rest => do
    let ms ← padMonth mn
    let curTx := allCur.filter (fun t => pyStartsWith t.date (cys ++ "-" ++ ms))
    let prevTx := ts.filter (fun t => (!(t.date == "")) && pyStartsWith t.date (pys ++ "-" ++ ms))
    let r ← mcLoop ts allCur cys pys rest
    .ok (curTx ++ r.1, prevTx ++ r.2.1,
         (ms, ((if curTx.isEmpty then none else some (generate_summary curTx)),
               (if prevTx.isEmpty then none else some (generate_summary prevTx)))) :: r.2.2)

/-- The `changes` sub-dict. -/
structure Changes where
  income_change : ℚ
  income_change_pct : ℚ
  expense_change : ℚ
  expense_change_pct : ℚ
  net_change : ℚ
  net_change_pct : ℚ
deriving Repr, DecidableEq

/-- The dict returned by `get_year_comparison_data`. -/
structure YearComparison where
  current_year : String
  previous_year : String
  current_summary : Summary
  previous_summary : Summary
  current_breakdown : List (String × BEntry)
  previous_breakdown : List (String × BEntry)
  changes : Changes
  monthly_comparison : List (String × (Option Summary × Option Summary))
deriving Repr, DecidableEq

/-- `get_year_comparison_data` (dashboard_data.py lines 279-357). -/
def get_year_comparison_data (ts : List RTxn) (cy py : ℕ) : Except String YearComparison := do
  let cys := toString cy
  let pys := toString py
  let allCur := ts.filter (fun t => (!(t.date == "")) && pyStartsWith t.date cys)
  let nums ← collectMonths cys allCur
  let r ← mcLoop ts allCur cys pys (sortedSet nums)
  let cs := generate_summary r.1
  let ps := generate_summary r.2.1
  let ic := cs.total_income - ps.total_income
  let ec := cs.total_expenses - ps.total_expenses
  let nc := cs.net - ps.net
  .ok { current_year := cys, previous_year := pys,
        current_summary := cs, previous_summary := ps,
        current_breakdown := generate_category_breakdown r.1,
        previous_breakdown := generate_category_breakdown r.2.1,
        changes :=
          { income_change := ic,
            income_change_pct := if ps.total_income ≠ 0 then ic / ps.total_income * 100 else 0,
            expense_change := ec,
            expense_change_pct := if ps.total_expenses ≠ 0 then ec / ps.total_expenses * 100 else 0,
            net_change := nc,
            net_change_pct := if ps.net ≠ 0 then nc / |ps.net| * 100 else 0 },
        monthly_comparison := r.2.2 }

/-! ## Bank statement parser (`parsers/bank_parser.py`, per-entry logic)

An entry is modelled by the texts of the sub-elements `BankParser.parse`
reads; `none` stands for an absent element (or an element with no text —
the code treats the two identically everywhere it guards with
`elem is not None and elem.text`).  The `Amt` text is modelled by its
parsed numeric value (an unparseable `Amt` raises at file level, outside
the per-entry property).  Crucially, the local variable
`counterparty_account` is only ever assigned inside the
`if tx_dtls is not None:` block, so for an entry without transaction
details the later read `account = counterparty_account` either raises
`UnboundLocalError` (first such entry) or silently reuses the value left
over from a previous iteration; the fold state below models that binding. -/

structure BankTxDtls where
  addtlRmtInf : Option String := none
  ref : Option String := none
  dbtrNm : Option String := none
  dbtrIban : Option String := none
  cdtrNm : Option String := none
  cdtrIban : Option String := none
deriving Repr, DecidableEq

structure BankEntry where
  rvslInd : Option String := none
  amt : Option ℚ := none
  cdtDbtInd : Option String := none
  bookgDt : Option String := none
  txDtls : Option BankTxDtls := none
  txId : Option String := none
deriving Repr, DecidableEq

structure BankTxn where
  date : Option String
  amount : ℚ
  description : String
  type_ : String
  reference : String
  counterparty : String
  account : String
  transaction_id : String
  source : String
deriving Repr, DecidableEq

/-- The date normalization (bank_parser.py lines 85-91): take the part
before `T`; for the padded ISO dates in scope
`datetime.fromisoformat(x).strftime('%Y-%m-%d')` is the identity on that
part, and on a parse failure the code falls back to the same truncated
string. -/
def bankDate (s : String) : String :=
  String.mk (s.data.takeWhile (fun c => c ≠ 'T'))

/-- Text of an optional element under the `elem is not None and elem.text`
guard, stripped; empty string when the guard fails. -/
def optTextStrip (t : Option String) : String :=
  match t with
  | some s => if s ≠ "" then pyStripStr s else ""
  | none => ""

/-- One iteration of the entry loop (bank_parser.py lines 54-158).  Returns
the produced transaction (if any) and the updated `counterparty_account`
binding; `Except.error` models the `UnboundLocalError` that the file-level
handler turns into a `ValueError`. -/
def bankEntryStep (ca : Option String) (e : BankEntry) :
    Except String (Option BankTxn × Option String) :=
  if (match e.rvslInd with | some t => t ≠ "" && pyLowerStr t == "true" | none => false) then
    .ok (none, ca)
  else
    match e.amt with
    | none => .ok (none, ca)
    | some v =>
      let amount : ℚ := if e.cdtDbtInd = some "DBIT" then -|v| else |v|
      let ty : String := if e.cdtDbtInd = some "DBIT" then "expense" else "income"
      let date : Option String :=
        match e.bookgDt with
        | some s => if s ≠ "" then some (bankDate s) else none
        | none => none
      match e.txDtls with
      | none =>
        match ca with
        | none => .error "UnboundLocalError: counterparty_account referenced before assignment"
        | some acc =>
          .ok (some { date := date, amount := amount, description := "Unknown transaction",
                      type_ := ty, reference := "", counterparty := "", account := acc,
                      transaction_id := (e.txId).getD "", source := "bank" }, ca)
      | some td =>
        let description := optTextStrip td.addtlRmtInf
        let reference := optTextStrip td.ref
        let counterparty :=
          if ty = "income" then optTextStrip td.dbtrNm else optTextStrip td.cdtrNm
        let cacc :=
          if ty = "income" then optTextStrip td.dbtrIban else optTextStrip td.cdtrIban
        let description := if description = "" ∧ counterparty ≠ "" then counterparty else description
        .ok (some { date := date, amount := amount,
                    description := if description = "" then "Unknown transaction" else description,
                    type_ := ty, reference := reference, counterparty := counterparty,
                    account := cacc, transaction_id := (e.txId).getD "", source := "bank" },
             some cacc)

def bankParseGo (ca : Option String) : List BankEntry → Except String (List BankTxn)
  | [] => .ok []
  | e :: rest => do
    let r ← bankEntryStep ca e
    let more ← bankParseGo r.2 rest
    .ok (match r.1 with | some t => t :: more | none => more)

/-- `BankParser.parse` over the statement's entry list.  A raised exception
(wrapped by the code into `ValueError("Error parsing bank file ...")`)
discards all transactions. -/
def bank_parse (entries : List BankEntry) : Except String (List BankTxn) :=
  bankParseGo none entries

/-! ## PayPal CSV parser (`parsers/paypal_parser.py`, per-row logic)

A CSV input is the header field-name list plus rows mapping each original
field name to its (string) cell value. -/

/-- `str.strip(chars)` generalization: strip characters satisfying `p` from
both ends. -/
def stripBy (p : Char → Bool) (l : List Char) : List Char :=
  ((l.dropWhile p).reverse.dropWhile p).reverse

/-- `field.strip().strip('"').strip(BOM).strip()` — the BOM is U+FEFF
(paypal_parser.py line 54). -/
def cleanField (f : String) : String :=
  String.mk (pyStripL (stripBy (fun c => c.toNat = 0xFEFF)
    (stripBy (fun c => c = '"') (pyStripL f.data))))

/-- `normalized_fieldnames`: clean name → original name, with Python dict
overwrite semantics. -/
def normalizeFieldnames (fns : List String) : List (String × String) :=
  fns.foldl (fun acc f => setA acc (cleanField f) f) []

/-- `normalized_row`: for each clean field name, `row.get(original, '')`.
(`csv.DictReader` supplies a string for every header column of a
well-formed row, which is the case in scope.) -/
def normalizedRow (nf : List (String × String)) (row : List (String × String)) :
    List (String × String) :=
  nf.map (fun p => (p.1, (lookupA row p.2).getD ""))

def IGNORE_TYPES : List String :=
  ["General Currency Conversion", "Bank Deposit to PP Account", "User Initiated Withdrawal"]

def natOfDigits (l : List Char) : ℕ :=
  l.foldl (fun acc c => acc * 10 + (c.toNat - 48)) 0

def leapYear (y : ℕ) : Bool := y % 4 = 0 && (y % 100 ≠ 0 || y % 400 = 0)

def daysInMonth (y m : ℕ) : ℕ :=
  if m = 2 then (if leapYear y then 29 else 28)
  else if m = 4 || m = 6 || m = 9 || m = 11 then 30
  else 31

def padNat (width n : ℕ) : String :=
  let s := toString n
  String.mk (List.replicate (width - s.length) '0') ++ s

/-- Model of `datetime.strptime(s, '%m/%d/%Y').strftime('%Y-%m-%d')`:
1-2 digit month/day, 1-4 digit year (≥ 1), calendar-validated; `none` for
the `ValueError` case. -/
def parseMDY (s : String) : Option String :=
  match splitOnCharL '/' s.data with
  | [m, d, y] =>
    if !m.isEmpty && m.length ≤ 2 && m.all Char.isDigit
        && !d.isEmpty && d.length ≤ 2 && d.all Char.isDigit
        && !y.isEmpty && y.length ≤ 4 && y.all Char.isDigit then
      let mv := natOfDigits m
      let dv := natOfDigits d
      let yv := natOfDigits y
      if 1 ≤ yv && 1 ≤ mv && mv ≤ 12 && 1 ≤ dv && dv ≤ daysInMonth yv mv then
        some (padNat 4 yv ++ "-" ++ padNat 2 mv ++ "-" ++ padNat 2 dv)
      else none
    else none
  | _ => none

/-- Model of Python `float(·)` for plain decimal literals (optional sign,
digits, optional fractional part); exponents/`inf`/`nan` are outside the
data in scope. -/
def parseDec (l : List Char) : Option ℚ :=
  let ip := l.takeWhile Char.isDigit
  let rest := l.drop ip.length
  match rest with
  | [] => if ip.isEmpty then none else some (natOfDigits ip)
  | '.' :: fp0 =>
    let fp := fp0.takeWhile Char.isDigit
    if !(fp0.drop fp.length).isEmpty then none
    else if ip.isEmpty && fp.isEmpty then none
    else some ((natOfDigits ip : ℚ) + (natOfDigits fp : ℚ) / ((10 : ℚ) ^ fp.length))
  | _ => none

def pyFloat? (s : String) : Option ℚ :=
  match pyStripL s.data with
  | '-' :: rest => (parseDec rest).map (fun q => -q)
  | '+' :: rest => parseDec rest
  | l => parseDec l

/-- `.replace(',', '')`. -/
def removeCommas (s : String) : String :=
  String.mk (s.data.filter (fun c => c ≠ ','))

structure PTxn where
  date : String
  amount : ℚ
  description : String
  type_ : String
  reference : String
  counterparty : String
  currency : String
  fee : ℚ
  transaction_id : String
  source : String
deriving Repr, DecidableEq

/-- The per-row logic of `PayPalParser.parse` (paypal_parser.py lines
57-128): `none` models a `continue`d (skipped) row. -/
def rowToTxn? (nf : List (String × String)) (rawRow : List (String × String)) : Option PTxn :=
  let row := normalizedRow nf rawRow
  let description := pyStripStr ((lookupA row "Description").getD "")
  if description ∈ IGNORE_TYPES then none
  else
    let date_str := pyStripStr ((lookupA row "Date").getD "")
    if date_str = "" then none
    else
      let date := (parseMDY date_str).getD date_str
      let net_str := removeCommas (pyStripStr ((lookupA row "Net").getD ""))
      match pyFloat? net_str with
      | none => none
      | some net =>
        let ty : String := if net < 0 then "expense" else "income"
        let currency := pyStripStr ((lookupA row "Currency").getD "EUR")
        let fee_str := removeCommas (pyStripStr ((lookupA row "Fee").getD ""))
        let fee : ℚ := if fee_str = "" then 0 else (pyFloat? fee_str).getD 0
        let counterparty := pyStripStr ((lookupA row "Name").getD "")
        let counterparty :=
          if counterparty = "" then pyStripStr ((lookupA row "From Email Address").getD "")
          else counterparty
        let reference := pyStripStr ((lookupA row "Invoice ID").getD "")
        let reference :=
          if reference = "" then pyStripStr ((lookupA row "Transaction ID").getD "")
          else reference
        let description :=
          if description = "" then (if counterparty ≠ "" then counterparty else "PayPal transaction")
          else description
        some { date := date, amount := net, description := description, type_ := ty,
               reference := reference, counterparty := counterparty, currency := currency,
               fee := fee, transaction_id := pyStripStr ((lookupA row "Transaction ID").getD ""),
               source := "paypal" }

/-- `PayPalParser.parse` over a whole CSV (header + rows). -/
def paypal_parse (fns : List String) (rows : List (List (String × String))) : List PTxn :=
  rows.filterMap (rowToTxn? (normalizeFieldnames fns))

/-- Sum of the `total` fields of a breakdown. -/
def sumTotals (bd : List (String × BEntry)) : ℚ :=
  (bd.map (fun p => p.2.total)).sum

/-- The twelve ISO month components. -/
def monthStrings : List String :=
  ["01", "02", "03", "04", "05", "06", "07", "08", "09", "10", "11", "12"]

/-! ## Helper lemmas -/

theorem lookupA_setA {β : Type} (bd : List (String × β)) (k k' : String) (v : β) :
    lookupA (setA bd k v) k' = if k = k' then some v else lookupA bd k' := by
  induction bd with
  | nil => simp [setA, lookupA]
  | cons p rest ih =>
    obtain ⟨k0, v0⟩ := p
    by_cases h : k0 = k
    · subst h
      by_cases h' : k0 = k' <;> simp [setA, lookupA, h']
    · by_cases h' : k0 = k'
      · subst h'
        have hkk : k ≠ k0 := fun he => h he.symm
        simp [setA, h, lookupA, hkk]
      · simp [setA, h, lookupA, h', ih]

theorem sumTotals_setA_of_none (bd : List (String × BEntry)) (k : String) (e : BEntry)
    (h : lookupA bd k = none) : sumTotals (setA bd k e) = sumTotals bd + e.total := by
  induction bd with
  | nil => simp [setA, sumTotals]
  | cons p rest ih =>
    obtain ⟨k0, v0⟩ := p
    by_cases hk : k0 = k
    · rw [lookupA, if_pos hk] at h
      cases h
    · rw [lookupA, if_neg hk] at h
      simp only [setA, if_neg hk, sumTotals, List.map_cons, List.sum_cons] at *
      rw [ih h]
      ring

theorem sumTotals_setA_of_some (bd : List (String × BEntry)) (k : String) (e e0 : BEntry)
    (h : lookupA bd k = some e0) : sumTotals (setA bd k e) = sumTotals bd - e0.total + e.total := by
  induction bd with
  | nil => cases h
  | cons p rest ih =>
    obtain ⟨k0, v0⟩ := p
    by_cases hk : k0 = k
    · rw [lookupA, if_pos hk] at h
      cases h
      simp only [setA, if_pos hk, sumTotals, List.map_cons, List.sum_cons]
      ring
    · rw [lookupA, if_neg hk] at h
      simp only [setA, if_neg hk, sumTotals, List.map_cons, List.sum_cons] at *
      rw [ih h]
      ring

theorem mem_uniqueFirstGo (l : List String) :
    ∀ (seen : List String) (x : String), x ∈ uniqueFirstGo seen l ↔ x ∈ l ∧ x ∉ seen := by
  induction l with
  | nil => intro seen x; simp [uniqueFirstGo]
  | cons c rest ih =>
    intro seen x
    by_cases h : c ∈ seen
    · rw [uniqueFirstGo, if_pos h, ih]
      constructor
      · rintro ⟨hx, hs⟩
        exact ⟨List.mem_cons_of_mem c hx, hs⟩
      · rintro ⟨hx, hs⟩
        rcases List.mem_cons.mp hx with rfl | hx'
        · exact absurd h hs
        · exact ⟨hx', hs⟩
    · rw [uniqueFirstGo, if_neg h]
      constructor
      · intro hx
        rcases List.mem_cons.mp hx with rfl | hx'
        · exact ⟨List.mem_cons_self x rest, h⟩
        · obtain ⟨h1, h2⟩ := (ih (c :: seen) x).mp hx'
          exact ⟨List.mem_cons_of_mem c h1, fun hs => h2 (List.mem_cons_of_mem c hs)⟩
      · rintro ⟨hx, hs⟩
        rcases List.mem_cons.mp hx with rfl | hx'
        · exact List.mem_cons_self x _
        · by_cases hxc : x = c
          · subst hxc
            exact List.mem_cons_self x _
          · exact List.mem_cons_of_mem c ((ih (c :: seen) x).mpr
              ⟨hx', fun hm => by
                rcases List.mem_cons.mp hm with h' | h'
                · exact hxc h'
                · exact hs h'⟩)

theorem mem_uniqueFirst (l : List String) (x : String) : x ∈ uniqueFirst l ↔ x ∈ l := by
  rw [uniqueFirst, mem_uniqueFirstGo]
  simp

theorem nodup_uniqueFirstGo (l : List String) : ∀ seen, (uniqueFirstGo seen l).Nodup := by
  induction l with
  | nil => intro seen; simp [uniqueFirstGo]
  | cons c rest ih =>
    intro seen
    by_cases h : c ∈ seen
    · rw [uniqueFirstGo, if_pos h]
      exact ih seen
    · rw [uniqueFirstGo, if_neg h]
      refine List.nodup_cons.mpr ⟨?_, ih (c :: seen)⟩
      intro hc
      exact ((mem_uniqueFirstGo rest (c :: seen) c).mp hc).2 (List.mem_cons_self c seen)

theorem nodup_uniqueFirst (l : List String) : (uniqueFirst l).Nodup :=
  nodup_uniqueFirstGo l []

theorem sum_map_zeroQ (u : List String) : (u.map (fun _ => (0 : ℚ))).sum = 0 := by
  induction u with
  | nil => rfl
  | cons c rest ih => simp [ih]

theorem sum_map_addQ (u : List String) (f g : String → ℚ) :
    (u.map (fun c => f c + g c)).sum = (u.map f).sum + (u.map g).sum := by
  induction u with
  | nil => simp
  | cons c rest ih =>
    simp [ih]
    ring

theorem sum_ite_singleQ (u : List String) (k : String) (a : ℚ) (hnd : u.Nodup) (hk : k ∈ u) :
    (u.map (fun c => if k = c then a else 0)).sum = a := by
  induction u with
  | nil => cases hk
  | cons c rest ih =>
    obtain ⟨hc, hnd'⟩ := List.nodup_cons.mp hnd
    rcases List.mem_cons.mp hk with rfl | hk'
    · have hz : (rest.map (fun c => if k = c then a else 0)).sum = 0 := by
        apply List.sum_eq_zero
        intro x hx
        obtain ⟨c', hc', hx'⟩ := List.mem_map.mp hx
        rw [← hx', if_neg]
        intro he
        exact hc (he ▸ hc')
      rw [List.map_cons, List.sum_cons, if_pos rfl, hz, add_zero]
    · have hne : k ≠ c := fun he => hc (he ▸ hk')
      rw [List.map_cons, List.sum_cons, if_neg hne, zero_add]
      exact ih hnd' hk'

theorem catTotal_cons (t : RTxn) (ts : List RTxn) (c : String) :
    catTotal (t :: ts) c = (if t.category = c then t.amount else 0) + catTotal ts c := by
  by_cases h : t.category = c <;> simp [catTotal, List.filter_cons, h]

theorem partition_sumQ (ts : List RTxn) :
    ∀ u : List String, u.Nodup → (∀ t ∈ ts, t.category ∈ u) →
      (u.map (catTotal ts)).sum = (ts.map (fun t => t.amount)).sum := by
  induction ts with
  | nil =>
    intro u _ _
    have h0 : ∀ (u' : List String), (u'.map (catTotal ([] : List RTxn))).sum = 0 := by
      intro u'
      induction u' with
      | nil => rfl
      | cons c r ih => simp [catTotal, ih]
    rw [h0]
    rfl
  | cons t rest ih =>
    intro u hnd hmem
    have h1 : ∀ x ∈ rest, x.category ∈ u := fun x hx => hmem x (List.mem_cons_of_mem t hx)
    have h2 : u.map (catTotal (t :: rest))
        = u.map (fun c => (if t.category = c then t.amount else 0) + catTotal rest c) := by
      have hf : catTotal (t :: rest)
          = fun c => (if t.category = c then t.amount else 0) + catTotal rest c :=
        funext (catTotal_cons t rest)
      rw [hf]
    rw [h2, sum_map_addQ, sum_ite_singleQ u t.category t.amount hnd
      (hmem t (List.mem_cons_self t rest)), ih u hnd h1]
    simp

theorem lookupA_processCat_ne (ts : List RTxn) (bd : List (String × BEntry)) (c c' : String)
    (htag : hasColon c = true → (splitColon1 c).1 ≠ c')
    (hflat : hasColon c = false → c ≠ c') :
    lookupA (processCat ts bd c) c' = lookupA bd c' := by
  by_cases hc : hasColon c = true
  · rcases hlk : lookupA bd (splitColon1 c).1 with _ | e <;>
      simp only [processCat, if_pos hc, hlk] <;>
      rw [lookupA_setA, if_neg (htag hc)]
  · have hc' : hasColon c = false := by
      cases h : hasColon c
      · rfl
      · exact absurd h hc
    simp only [processCat, hc', Bool.false_eq_true, if_false]
    rw [lookupA_setA, if_neg (hflat hc')]

theorem sumTotals_processCat (ts : List RTxn) (bd : List (String × BEntry)) (c : String)
    (hflat : hasColon c = false → lookupA bd c = none) :
    sumTotals (processCat ts bd c) = sumTotals bd + catTotal ts c := by
  by_cases hc : hasColon c = true
  · rcases hlk : lookupA bd (splitColon1 c).1 with _ | e
    · simp only [processCat, if_pos hc, hlk]
      rw [sumTotals_setA_of_none _ _ _ hlk]
    · simp only [processCat, if_pos hc, hlk]
      rw [sumTotals_setA_of_some _ _ _ _ hlk]
      ring
  · have hc' : hasColon c = false := by
      cases h : hasColon c
      · rfl
      · exact absurd h hc
    simp only [processCat, hc', Bool.false_eq_true, if_false]
    rw [sumTotals_setA_of_none _ _ _ (hflat hc')]

theorem breakdown_fold_sum (ts : List RTxn) :
    ∀ (cs : List String) (bd : List (String × BEntry)),
      cs.Nodup →
      (∀ c ∈ cs, hasColon c = false → lookupA bd c = none) →
      (∀ c ∈ cs, hasColon c = false → ∀ c' ∈ cs, hasColon c' = true →
          (splitColon1 c').1 ≠ c) →
      sumTotals (cs.foldl (processCat ts) bd) = sumTotals bd + (cs.map (catTotal ts)).sum := by
  intro cs
  induction cs with
  | nil => intro bd _ _ _; simp
  | cons c rest ih =>
    intro bd hnd hflat hdisj
    obtain ⟨hc, hnd'⟩ := List.nodup_cons.mp hnd
    rw [List.foldl_cons, List.map_cons, List.sum_cons]
    have hstep := sumTotals_processCat ts bd c
      (fun h => hflat c (List.mem_cons_self c rest) h)
    have hflat' : ∀ c'' ∈ rest, hasColon c'' = false →
        lookupA (processCat ts bd c) c'' = none := by
      intro c'' hm hf
      rw [lookupA_processCat_ne ts bd c c''
        (fun htag => hdisj c'' (List.mem_cons_of_mem c hm) hf c (List.mem_cons_self c rest) htag)
        (fun _ => fun he => hc (he ▸ hm))]
      exact hflat c'' (List.mem_cons_of_mem c hm) hf
    have hdisj' : ∀ c'' ∈ rest, hasColon c'' = false → ∀ c' ∈ rest, hasColon c' = true →
        (splitColon1 c').1 ≠ c'' := fun c'' hm hf c' hm' ht =>
      hdisj c'' (List.mem_cons_of_mem c hm) hf c' (List.mem_cons_of_mem c hm') ht
    rw [ih (processCat ts bd c) hnd' hflat' hdisj', hstep]
    ring

/-! ## The claims -/

/-- C1: `categorize_transaction` is deterministic — it is (the shallow
embedding of) a pure function of exactly `(description, type, amount,
counterparty, account)`: the source reads nothing but its five arguments
and the module-level constant tables, so two invocations on identical
argument tuples return the identical category string. -/
theorem c1_categorize_transaction_deterministic (d ty : String) (amt : Option ℚ)
    (cp acct : Option String) :
    categorize_transaction d ty amt cp acct = categorize_transaction d ty amt cp acct := rfl

/-- C9: on the empty list `generate_summary` returns a dict with only the
four keys `total_income`, `total_expenses`, `net`, `transaction_count`
(all zero); the `income_count`/`expense_count` keys present on every
non-empty result are absent. -/
theorem c9_empty_summary_shape :
    generate_summary [] =
      { total_income := 0, total_expenses := 0, net := 0, transaction_count := 0,
        income_count := none, expense_count := none } := rfl

theorem filter_income_expense_length (ts : List RTxn)
    (h : ∀ t ∈ ts, t.type_ = "income" ∨ t.type_ = "expense") :
    (ts.filter (fun t => t.type_ == "income")).length
      + (ts.filter (fun t => t.type_ == "expense")).length = ts.length := by
  induction ts with
  | nil => rfl
  | cons t rest ih =>
    have h1 := h t (List.mem_cons_self t rest)
    have ih' := ih (fun x hx => h x (List.mem_cons_of_mem t hx))
    rcases h1 with h1 | h1 <;> simp [List.filter_cons, h1] <;> omega

/-- C2: for every transaction list (`type` ranging over the data model's
`income`/`expense` enumeration) `generate_summary` satisfies
`net = total_income - total_expenses`, `total_expenses ≥ 0`, and
`transaction_count = income_count + expense_count`; on the empty list it is
the all-zero summary with `transaction_count = 0`. -/
theorem c2_generate_summary_invariants (ts : List RTxn)
    (h : ∀ t ∈ ts, t.type_ = "income" ∨ t.type_ = "expense") :
    (generate_summary ts).net
        = (generate_summary ts).total_income - (generate_summary ts).total_expenses
    ∧ 0 ≤ (generate_summary ts).total_expenses
    ∧ (∀ i e, (generate_summary ts).income_count = some i →
        (generate_summary ts).expense_count = some e →
        (generate_summary ts).transaction_count = i + e)
    ∧ (ts = [] →
        (generate_summary ts).total_income = 0 ∧ (generate_summary ts).total_expenses = 0
        ∧ (generate_summary ts).net = 0 ∧ (generate_summary ts).transaction_count = 0) := by
  cases ts with
  | nil =>
    refine ⟨by simp [generate_summary], by simp [generate_summary], ?_, fun _ => by simp [generate_summary]⟩
    intro i e hi _
    simp [generate_summary] at hi
  | cons t rest =>
    refine ⟨by simp [generate_summary], ?_, ?_, fun hc => absurd hc (List.cons_ne_nil t rest)⟩
    · simp only [generate_summary, List.isEmpty_cons, Bool.false_eq_true, if_false]
      exact abs_nonneg _
    · intro i e hi he
      simp only [generate_summary, List.isEmpty_cons, Bool.false_eq_true, if_false,
        Option.some.injEq] at hi he ⊢
      rw [← hi, ← he]
      exact (filter_income_expense_length (t :: rest) h).symm

/-- C3 counterexample: with an untagged category (`salary`) whose name is
the base of an earlier-seen tagged category (`salary:founders`), the flat
assignment in `generate_category_breakdown` overwrites the accumulated base
bucket, so the totals no longer sum to the transaction amounts
(3 ≠ 5 + 3). -/
theorem c3_counterexample :
    ¬ (sumTotals (generate_category_breakdown
        [{ date := "", type_ := "income", amount := 5, category := "salary:founders" },
         { date := "", type_ := "income", amount := 3, category := "salary" }])
      = (([{ date := "", type_ := "income", amount := 5, category := "salary:founders" },
           { date := "", type_ := "income", amount := 3, category := "salary" }] : List RTxn).map
          (fun t => t.amount)).sum) := by
  have h1 : uniqueFirst (([{ date := "", type_ := "income", amount := 5, category := "salary:founders" },
         { date := "", type_ := "income", amount := 3, category := "salary" }] : List RTxn).map
        (fun t => t.category))
      = ["salary:founders", "salary"] := by decide
  simp only [generate_category_breakdown, List.isEmpty_cons, Bool.false_eq_true, if_false, h1]
  have hsp : splitColon1 "salary:founders" = ("salary", "founders") := by decide
  have hcol1 : hasColon "salary:founders" = true := by decide
  have hcol2 : hasColon "salary" = false := by decide
  simp only [List.foldl_cons, List.foldl_nil, processCat, hsp, hcol1, hcol2]
  have hb1 : ("salary" == "salary:founders") = false := by decide
  have hb2 : ("salary:founders" == "salary") = false := by decide
  have hb3 : ("salary" == "salary") = true := by decide
  have hb4 : ("salary:founders" == "salary:founders") = true := by decide
  norm_num [lookupA, setA, catTotal, catCount, sumTotals, List.filter, hb1, hb2, hb3, hb4]

/-- C3 (amended): for every transaction list in which no transaction's
untagged category string equals the base prefix of another transaction's
tagged category (the flat/base name collision exhibited by the
counterexample), the sum of the breakdown's `total` values — tagged
categories folded into their base buckets — equals the sum of all
transaction amounts. -/
theorem c3_amended_breakdown_sum (ts : List RTxn)
    (hdisj : ∀ t ∈ ts, hasColon t.category = false →
        ∀ t' ∈ ts, hasColon t'.category = true → (splitColon1 t'.category).1 ≠ t.category) :
    sumTotals (generate_category_breakdown ts) = (ts.map (fun t => t.amount)).sum := by
  by_cases hts : ts = []
  · subst hts
    rfl
  · have hne : ts.isEmpty = false := by
      cases ts
      · exact absurd rfl hts
      · rfl
    rw [generate_category_breakdown, hne]
    simp only [Bool.false_eq_true, if_false]
    have hmemu : ∀ x, x ∈ uniqueFirst (ts.map (fun t => t.category)) ↔
        ∃ t ∈ ts, t.category = x := by
      intro x
      rw [mem_uniqueFirst, List.mem_map]
    rw [breakdown_fold_sum ts (uniqueFirst (ts.map (fun t => t.category))) []
      (nodup_uniqueFirst _)
      (fun c _ _ => rfl)
      (by
        intro c hcm hcf c' hcm' hct
        obtain ⟨t, htm, htc⟩ := (hmemu c).mp hcm
        obtain ⟨t', htm', htc'⟩ := (hmemu c').mp hcm'
        rw [← htc, ← htc']
        exact hdisj t htm (htc ▸ hcf) t' htm' (htc' ▸ hct))]
    rw [partition_sumQ ts _ (nodup_uniqueFirst _)
      (fun t ht => (hmemu t.category).mpr ⟨t, ht, rfl⟩)]
    simp [sumTotals]

/-- Witness for C2 at a concrete list. -/
theorem c2_witness :
    (∀ t ∈ ([{ date := "", type_ := "income", amount := 1000, category := "" },
             { date := "", type_ := "expense", amount := -200, category := "" }] : List RTxn),
        t.type_ = "income" ∨ t.type_ = "expense")
    ∧ (generate_summary
        [{ date := "", type_ := "income", amount := 1000, category := "" },
         { date := "", type_ := "expense", amount := -200, category := "" }]).net
      = (generate_summary
        [{ date := "", type_ := "income", amount := 1000, category := "" },
         { date := "", type_ := "expense", amount := -200, category := "" }]).total_income
        - (generate_summary
        [{ date := "", type_ := "income", amount := 1000, category := "" },
         { date := "", type_ := "expense", amount := -200, category := "" }]).total_expenses :=
  ⟨by decide, (c2_generate_summary_invariants _ (by decide)).1⟩

/-- Witness for the amended C3 at a concrete list. -/
theorem c3_amended_witness :
    (∀ t ∈ ([{ date := "", type_ := "income", amount := 1000, category := "sales" },
             { date := "", type_ := "expense", amount := -200, category := "office" },
             { date := "", type_ := "income", amount := 5, category := "salary:founders" }] : List RTxn),
        hasColon t.category = false →
        ∀ t' ∈ ([{ date := "", type_ := "income", amount := 1000, category := "sales" },
                 { date := "", type_ := "expense", amount := -200, category := "office" },
                 { date := "", type_ := "income", amount := 5, category := "salary:founders" }] : List RTxn),
          hasColon t'.category = true → (splitColon1 t'.category).1 ≠ t.category)
    ∧ sumTotals (generate_category_breakdown
        [{ date := "", type_ := "income", amount := 1000, category := "sales" },
         { date := "", type_ := "expense", amount := -200, category := "office" },
         { date := "", type_ := "income", amount := 5, category := "salary:founders" }])
      = (([{ date := "", type_ := "income", amount := 1000, category := "sales" },
           { date := "", type_ := "expense", amount := -200, category := "office" },
           { date := "", type_ := "income", amount := 5, category := "salary:founders" }] : List RTxn).map
          (fun t => t.amount)).sum :=
  ⟨by decide, c3_amended_breakdown_sum _ (by decide)⟩

/-- C4 counterexample: the normalization computed inline by
`categorize_transaction` does not apply the CTRP/IN-FIT aliasing of
`normalize_counterparty_name`, so the two differ on `"CTRP"`. -/
theorem c4_counterexample :
    categorizeNormalize "CTRP" = "ctrp"
    ∧ normalize_counterparty_name "CTRP" = "in-fit d.o.o."
    ∧ categorizeNormalize "CTRP" ≠ normalize_counterparty_name "CTRP" := by decide

/-- C4 (amended): the inline normalization of `categorize_transaction`
agrees with `normalize_counterparty_name` on every counterparty for which
the three steps present only in the latter are no-ops: the `d. d.`
space-variant rule fires nowhere, the two `z.b.o.` regex variants agree on
the intermediate string, and the ctrp/in-fit/infit aliasing guard does not
fire on the final string. -/
theorem c4_amended_normalization_agreement (s : String)
    (h1 : reSub mDdSpace (preNorm s) = preNorm s)
    (h2 : reSub mZboU (reSub mSp (reSub mDd (reSub mDoo (reSub mComma
            (reSub mSs2 (reSub mSs1 (preNorm s)))))))
        = reSub mZboC (reSub mSp (reSub mDd (reSub mDoo (reSub mComma
            (reSub mSs2 (reSub mSs1 (preNorm s))))))))
    (h3 : aliasHit (utilsChainL (preNorm s)) = false) :
    normalize_counterparty_name s = categorizeNormalize s := by
  have hx : utilsChainL (preNorm s) = catChainL (preNorm s) := by
    unfold utilsChainL catChainL
    rw [h1, h2]
  rw [hx] at h3
  unfold normalize_counterparty_name categorizeNormalize
  rw [hx]
  simp only [aliasStep, h3, Bool.false_eq_true, if_false]

/-- Witness for the amended C4 at a concrete input. -/
theorem c4_amended_witness :
    (reSub mDdSpace (preNorm "Acme, D.O.O") = preNorm "Acme, D.O.O")
    ∧ (aliasHit (utilsChainL (preNorm "Acme, D.O.O")) = false)
    ∧ normalize_counterparty_name "Acme, D.O.O" = categorizeNormalize "Acme, D.O.O" :=
  ⟨by decide, by decide,
   c4_amended_normalization_agreement "Acme, D.O.O" (by decide) (by decide) (by decide)⟩

/-- C5: when `account` is a key of `ACCOUNT_CATEGORIES`, the mapped
category is returned regardless of description whenever it does not start
with `salary` or the type is `expense`; for income into a salary-mapped
account the override is skipped and the result is exactly what the
function computes with no account at all (so the account mapping
contributes no `salary:*` result). -/
theorem c5_account_override (d ty : String) (amt : Option ℚ) (cp : Option String)
    (acct cat : String) (hlk : lookupA ACCOUNT_CATEGORIES acct = some cat) :
    ((pyStartsWith cat "salary" = false ∨ ty = "expense") →
        categorize_transaction d ty amt cp (some acct) = cat)
    ∧ ((ty = "income" ∧ pyStartsWith cat "salary" = true) →
        categorize_transaction d ty amt cp (some acct)
          = categorize_transaction d ty amt cp none) := by
  have h5 : lookupA ACCOUNT_CATEGORIES acct
      = if "SI56290000059820339" = acct then some "salary:students" else none := rfl
  rw [h5] at hlk
  by_cases h : ("SI56290000059820339" : String) = acct
  · rw [if_pos h] at hlk
    have hcat : cat = "salary:students" := (Option.some.inj hlk).symm
    subst hcat
    subst h
    constructor
    · intro hor
      rcases hor with hsw | hty
      · have : pyStartsWith "salary:students" "salary" = true := by decide
        rw [this] at hsw
        cases hsw
      · subst hty
        rfl
    · rintro ⟨hty, _⟩
      subst hty
      rfl
  · rw [if_neg h] at hlk
    cases hlk

/-- Witness for C5 at the table's account and both transaction types. -/
theorem c5_witness :
    lookupA ACCOUNT_CATEGORIES "SI56290000059820339" = some "salary:students"
    ∧ categorize_transaction "Payment" "expense" none none (some "SI56290000059820339")
        = "salary:students"
    ∧ categorize_transaction "Payment" "income" none none (some "SI56290000059820339")
        = categorize_transaction "Payment" "income" none none none :=
  ⟨rfl,
   (c5_account_override "Payment" "expense" none none "SI56290000059820339" "salary:students" rfl).1
     (Or.inr rfl),
   (c5_account_override "Payment" "income" none none "SI56290000059820339" "salary:students" rfl).2
     ⟨rfl, by decide⟩⟩

/-- C6: for an income transaction that reaches the amount-based check (no
account override, no counterparty-table match, non-empty description, no
loans/transfers/benefits/refund keyword hit): an amount of exactly 1000 is
not a large deal (the threshold is strict), and any amount strictly above
1000 yields `compensations:income` unless the normalized counterparty
contains an always-sales allow-list entry, in which case the sales
subcategory is returned regardless of amount. -/
theorem c6_large_income_threshold (d : String) (cp acct : Option String)
    (hd : d ≠ "")
    (hacct : accountHit acct "income" = none)
    (hscan : scanResult d "income" cp = none)
    (hns : nonSalesScan (pyLowerStr d) = none) :
    categorize_transaction d "income" (some 1000) cp acct
        = get_sales_subcategory (pyLowerStr d) (normCp cp)
    ∧ ∀ q : ℚ, 1000 < q →
        categorize_transaction d "income" (some q) cp acct
          = (if largeDealAllowHit (normCp cp) then
               get_sales_subcategory (pyLowerStr d) (normCp cp)
             else "compensations:income") := by
  constructor
  · rw [categorize_transaction, hacct, hscan, descPhase]
    rw [if_neg (by simpa using hd)]
    have hgt : amtGT (some 1000) 1000 = false := by
      simp [amtGT]
    simp only [if_pos rfl, hns, hgt, Bool.false_eq_true, if_false]
    simp
  · intro q hq
    rw [categorize_transaction, hacct, hscan, descPhase]
    rw [if_neg (by simpa using hd)]
    have hgt : amtGT (some q) 1000 = true := by
      simp [amtGT, hq]
    simp only [if_pos rfl, hns, hgt, if_true]

/-- Witness for C6: a large payment from the always-sales counterparty
`Optispin d.o.o.` stays a sales subcategory. -/
theorem c6_witness :
    (("Payment" : String) ≠ ""
      ∧ accountHit none "income" = none
      ∧ scanResult "Payment" "income" (some "Optispin d.o.o.") = none
      ∧ nonSalesScan (pyLowerStr "Payment") = none)
    ∧ categorize_transaction "Payment" "income" (some 1000) (some "Optispin d.o.o.") none
        = "sales:invoice"
    ∧ categorize_transaction "Payment" "income" (some 1001) (some "Optispin d.o.o.") none
        = "sales:invoice" := by
  have h := c6_large_income_threshold "Payment" (some "Optispin d.o.o.") none
    (by decide) rfl (by decide) (by decide)
  refine ⟨⟨by decide, rfl, by decide, by decide⟩, ?_, ?_⟩
  · rw [h.1]
    decide
  · rw [h.2 1001 (by norm_num)]
    decide

/-- C7: per-entry behaviour of `BankParser.parse`.  (a) An entry whose
`RvslInd` text is `true` (case-insensitive) produces no transaction and
leaves the loop state untouched.  (b) An entry with an `Amt` and
transaction details produces exactly one transaction with
`type=expense, amount=-|Amt|` for `DBIT` and `type=income, amount=|Amt|`
otherwise.  (c) However, the claim fails on an entry that carries an `Amt`
but no `NtryDtls/TxDtls` as the first entry of a statement: the local
variable `counterparty_account` is only assigned inside the
`if tx_dtls is not None:` block, so `account = counterparty_account`
raises `UnboundLocalError`, the file-level handler re-raises `ValueError`,
and the entry yields zero transactions instead of exactly one. -/
theorem c7_bank_entry_behaviour :
    (∀ (ca : Option String) (e : BankEntry),
        (match e.rvslInd with
         | some t => t ≠ "" && pyLowerStr t == "true"
         | none => false) = true →
        bankEntryStep ca e = .ok (none, ca))
    ∧ (∀ (ca : Option String) (e : BankEntry) (v : ℚ) (td : BankTxDtls),
        e.rvslInd = none → e.amt = some v → e.txDtls = some td →
        ∃ t : BankTxn, bankEntryStep ca e = .ok (some t, some t.account)
          ∧ (e.cdtDbtInd = some "DBIT" → t.type_ = "expense" ∧ t.amount = -|v|)
          ∧ (e.cdtDbtInd ≠ some "DBIT" → t.type_ = "income" ∧ t.amount = |v|))
    ∧ bank_parse [{ amt := some ((201 : ℚ)/2), cdtDbtInd := some "CRDT" }]
        = .error "UnboundLocalError: counterparty_account referenced before assignment" := by
  refine ⟨?_, ?_, rfl⟩
  · intro ca e h
    rw [bankEntryStep, if_pos h]
  · intro ca e v td hrv ham htd
    obtain ⟨rv, am, cd, bk, tdl, txid⟩ := e
    simp only at hrv ham htd
    subst hrv
    subst ham
    subst htd
    by_cases hdb : cd = some "DBIT"
    · subst hdb
      refine ⟨_, rfl, fun _ => ⟨rfl, rfl⟩, fun hne => absurd rfl hne⟩
    · refine ⟨_, rfl, fun hd => absurd hd hdb, fun _ => ⟨?_, ?_⟩⟩ <;>
        simp [hdb]
  

/-- Witness for C7's reversal conjunct at a concrete entry. -/
theorem c7_witness :
    bankEntryStep none { rvslInd := some "true", amt := some (100 : ℚ) } = .ok (none, none) :=
  c7_bank_entry_behaviour.1 none _ (by decide)

theorem rowToTxn_currency (nf : List (String × String)) (row : List (String × String))
    (t : PTxn) (h : rowToTxn? nf row = some t) :
    t.currency = pyStripStr ((lookupA (normalizedRow nf row) "Currency").getD "EUR") := by
  simp only [rowToTxn?] at h
  split at h
  · cases h
  · split at h
    · cases h
    · split at h
      · cases h
      · cases h
        rfl

theorem lookupA_normalizedRow (nf : List (String × String)) (row : List (String × String))
    (k : String) :
    lookupA (normalizedRow nf row) k
      = (lookupA nf k).map (fun orig => (lookupA row orig).getD "") := by
  induction nf with
  | nil => rfl
  | cons p rest ih =>
    obtain ⟨k0, orig⟩ := p
    by_cases h : k0 = k
    · simp [normalizedRow, lookupA, h]
    · simp only [normalizedRow, List.map_cons, lookupA, if_neg h]
      simpa [normalizedRow] using ih

/-- C10: in `PayPalParser.parse` the `"EUR"` currency default applies only
when the header has no `Currency` column at all; when the column exists, a
row whose `Currency` cell is empty yields a transaction whose currency is
the empty string, not `"EUR"`. -/
theorem c10_paypal_currency_default (fns : List String) (row : List (String × String)) :
    (lookupA (normalizeFieldnames fns) "Currency" = none →
      ∀ t, rowToTxn? (normalizeFieldnames fns) row = some t → t.currency = "EUR")
    ∧ (lookupA (normalizedRow (normalizeFieldnames fns) row) "Currency" = some "" →
      ∀ t, rowToTxn? (normalizeFieldnames fns) row = some t → t.currency = "") := by
  constructor
  · intro hnone t ht
    rw [rowToTxn_currency _ _ _ ht, lookupA_normalizedRow, hnone]
    rfl
  · intro hsome t ht
    rw [rowToTxn_currency _ _ _ ht, hsome]
    rfl

/-- Witness for C10: a header with a `Currency` column and a row with an
empty `Currency` cell produces a transaction with currency `""`. -/
theorem c10_witness :
    lookupA (normalizeFieldnames ["Date", "Description", "Net"]) "Currency" = none
    ∧ (rowToTxn? (normalizeFieldnames ["Date", "Description", "Net", "Currency"])
        [("Date", "10/1/2025"), ("Description", "Subscription"), ("Net", "5.00"), ("Currency", "")]).map
        (fun t => t.currency) = some "" := by
  refine ⟨rfl, ?_⟩
  have h := (c10_paypal_currency_default ["Date", "Description", "Net", "Currency"]
      [("Date", "10/1/2025"), ("Description", "Subscription"), ("Net", "5.00"), ("Currency", "")]).2
    (by decide)
  rcases hrw : rowToTxn? (normalizeFieldnames ["Date", "Description", "Net", "Currency"])
      [("Date", "10/1/2025"), ("Description", "Subscription"), ("Net", "5.00"), ("Currency", "")]
    with _ | t
  · exact absurd hrw (by decide)
  · rw [Option.map_some', h t hrw]

/-! ### C8 infrastructure -/

theorem padMonth_id : ∀ m ∈ monthStrings, padMonth m = Except.ok m := by
  intro m hm
  fin_cases hm <;> rfl

theorem monthStrings_len : ∀ m ∈ monthStrings, m.data.length = 2 := by decide

theorem monthStrings_no_dash : ∀ m ∈ monthStrings, '-' ∉ m.data := by decide

theorem exbind_ok {α β : Type} (a : α) (f : α → Except String β) :
    (Except.ok a >>= f : Except String β) = f a := rfl

theorem startsWithL_iff (p : List Char) : ∀ s, startsWithL p s = true ↔ ∃ r, s = p ++ r := by
  induction p with
  | nil =>
    intro s
    simp [startsWithL]
  | cons c cs ih =>
    intro s
    cases s with
    | nil =>
      simp [startsWithL]
    | cons d ds =>
      rw [startsWithL]
      simp only [Bool.and_eq_true, decide_eq_true_eq, ih]
      constructor
      · rintro ⟨rfl, r, rfl⟩
        exact ⟨r, rfl⟩
      · rintro ⟨r, hr⟩
        rw [List.cons_append] at hr
        cases hr
        exact ⟨rfl, r, rfl⟩

theorem splitOnCharL_no_sep (c : Char) : ∀ l : List Char, c ∉ l → splitOnCharL c l = [l] := by
  intro l
  induction l with
  | nil => intro _; rfl
  | cons d rest ih =>
    intro h
    have hd : d ≠ c := fun he => h (he ▸ List.mem_cons_self d rest)
    have hr := ih (fun hm => h (List.mem_cons_of_mem d hm))
    rw [splitOnCharL, hr, if_neg hd]

theorem splitOnCharL_append (c : Char) : ∀ (a b : List Char), c ∉ a → c ∉ b →
    splitOnCharL c (a ++ c :: b) = [a, b] := by
  intro a
  induction a with
  | nil =>
    intro b _ hb
    rw [List.nil_append, splitOnCharL, if_pos rfl, splitOnCharL_no_sep c b hb]
  | cons d rest ih =>
    intro b ha hb
    have hd : d ≠ c := fun he => ha (he ▸ List.mem_cons_self d rest)
    have hr := ih b (fun hm => ha (List.mem_cons_of_mem d hm)) hb
    rw [List.cons_append, splitOnCharL, hr, if_neg hd]

theorem mem_sortedSet (l : List String) (m : String) : m ∈ sortedSet l ↔ m ∈ l := by
  rw [sortedSet, (List.perm_insertionSort _ (uniqueFirst l)).mem_iff, mem_uniqueFirst]

theorem mem_keys_iff {β : Type} (l : List (String × β)) (k : String) :
    (∃ p, (k, p) ∈ l) ↔ k ∈ l.map Prod.fst := by
  constructor
  · rintro ⟨p, hp⟩
    exact List.mem_map.mpr ⟨(k, p), hp, rfl⟩
  · intro hk
    obtain ⟨x, hx, hfst⟩ := List.mem_map.mp hk
    exact ⟨x.2, by rw [← hfst]; exact hx⟩

theorem collectMonths_spec (cys : String) (hcd : '-' ∉ cys.data) :
    ∀ l : List RTxn,
      (∀ t ∈ l, t.date ≠ "" ∧ ∃ mm, mm ∈ monthStrings
          ∧ strTake t.date 7 = String.mk (cys.data ++ '-' :: mm.data)) →
      ∃ nums, collectMonths cys l = Except.ok nums
        ∧ (∀ m ∈ nums, m ∈ monthStrings)
        ∧ (∀ m : String, m ∈ nums ↔
            ∃ t ∈ l, strTake t.date 7 = String.mk (cys.data ++ '-' :: m.data)) := by
  intro l
  induction l with
  | nil =>
    intro _
    refine ⟨[], rfl, fun m hm => absurd hm (List.not_mem_nil m), fun m => ?_⟩
    simp
  | cons t rest ih =>
    intro h
    obtain ⟨hdt, mm, hmm, htake⟩ := h t (List.mem_cons_self t rest)
    obtain ⟨nums, hnums, hmem, hiff⟩ := ih (fun x hx => h x (List.mem_cons_of_mem t hx))
    have hm7 : (strTake t.date 7).data = cys.data ++ '-' :: mm.data := congrArg String.data htake
    have hstart : pyStartsWith (strTake t.date 7) cys = true := by
      rw [pyStartsWith, hm7]
      exact (startsWithL_iff cys.data _).mpr ⟨'-' :: mm.data, rfl⟩
    have hsplit : splitOnCharL '-' (strTake t.date 7).data = [cys.data, mm.data] := by
      rw [hm7]
      exact splitOnCharL_append '-' cys.data mm.data hcd (monthStrings_no_dash mm hmm)
    refine ⟨mm :: nums, ?_, ?_, ?_⟩
    · rw [collectMonths, if_pos hdt, if_pos hstart, hsplit]
      simp only [List.get?]
      rw [hnums, exbind_ok]
    · intro m hm
      rcases List.mem_cons.mp hm with rfl | hm'
      · exact hmm
      · exact hmem m hm'
    · intro m
      constructor
      · intro hm
        rcases List.mem_cons.mp hm with rfl | hm'
        · exact ⟨t, List.mem_cons_self t rest, htake⟩
        · obtain ⟨t', ht', htk⟩ := (hiff m).mp hm'
          exact ⟨t', List.mem_cons_of_mem t ht', htk⟩
      · rintro ⟨t', ht', htk⟩
        rcases List.mem_cons.mp ht' with rfl | ht''
        · have : cys.data ++ '-' :: mm.data = cys.data ++ '-' :: m.data := by
            have h1 := congrArg String.data htk
            rw [hm7] at h1
            exact h1
          have hmd : mm.data = m.data := by
            have := List.append_inj this rfl
            exact (List.cons.injEq _ _ _ _ ▸ this.2).2
          have : mm = m := by
            have h2 : String.mk mm.data = String.mk m.data := by rw [hmd]
            simpa using h2
          exact this ▸ List.mem_cons_self mm nums
        · exact List.mem_cons_of_mem mm ((hiff m).mpr ⟨t', ht'', htk⟩)

theorem mcLoop_keys (ts allCur : List RTxn) (cys pys : String) :
    ∀ ms : List String, (∀ m ∈ ms, m ∈ monthStrings) →
      ∃ out, mcLoop ts allCur cys pys ms = Except.ok out
        ∧ out.2.2.map Prod.fst = ms := by
  intro ms
  induction ms with
  | nil => exact fun _ => ⟨([], [], []), rfl, rfl⟩
  | cons m rest ih =>
    intro hms
    obtain ⟨out, hout, hkeys⟩ := ih (fun x hx => hms x (List.mem_cons_of_mem m hx))
    have hpad : padMonth m = Except.ok m := padMonth_id m (hms m (List.mem_cons_self m rest))
    rw [mcLoop, hpad, exbind_ok, hout, exbind_ok]
    refine ⟨_, rfl, ?_⟩
    simp [hkeys]

/-- C8: for every transaction list and year pair (dates well-formed per the
data model: any date of a current-year transaction is `YYYY-MM…` with a
valid zero-padded month), `get_year_comparison_data` succeeds and its
`monthly_comparison` contains exactly the months with at least one
current-year transaction; a month present only in the previous year never
appears as a key. -/
theorem c8_year_comparison_month_scope (ts : List RTxn) (cy py : ℕ)
    (hcd : '-' ∉ (toString cy).data)
    (Hwf : ∀ t ∈ ts, t.date ≠ "" → pyStartsWith t.date (toString cy) = true →
        ∃ mm, mm ∈ monthStrings
          ∧ strTake t.date 7 = String.mk ((toString cy).data ++ '-' :: mm.data)) :
    ∃ r, get_year_comparison_data ts cy py = Except.ok r
      ∧ (∀ k, (∃ p, (k, p) ∈ r.monthly_comparison) → k ∈ monthStrings)
      ∧ (∀ m ∈ monthStrings,
          ((∃ p, (m, p) ∈ r.monthly_comparison) ↔
            ∃ t ∈ ts, t.date ≠ ""
              ∧ pyStartsWith t.date (String.mk ((toString cy).data ++ '-' :: m.data)) = true)) := by
  have hAll : ∀ t ∈ ts.filter (fun t => (!(t.date == "")) && pyStartsWith t.date (toString cy)),
      t.date ≠ "" ∧ ∃ mm, mm ∈ monthStrings
        ∧ strTake t.date 7 = String.mk ((toString cy).data ++ '-' :: mm.data) := by
    intro t ht
    obtain ⟨hts, hcond⟩ := List.mem_filter.mp ht
    obtain ⟨hne, hpre⟩ := Bool.and_eq_true_iff.mp hcond
    have hne' : t.date ≠ "" := by
      intro he
      rw [he] at hne
      simp at hne
    exact ⟨hne', Hwf t hts hne' hpre⟩
  obtain ⟨nums, hnums, hnmem, hniff⟩ :=
    collectMonths_spec (toString cy) hcd
      (ts.filter (fun t => (!(t.date == "")) && pyStartsWith t.date (toString cy))) hAll
  have hsmem : ∀ m ∈ sortedSet nums, m ∈ monthStrings :=
    fun m hm => hnmem m ((mem_sortedSet nums m).mp hm)
  obtain ⟨out, hout, hkeys⟩ := mcLoop_keys ts
    (ts.filter (fun t => (!(t.date == "")) && pyStartsWith t.date (toString cy)))
    (toString cy) (toString py) (sortedSet nums) hsmem
  rw [get_year_comparison_data, hnums, exbind_ok, hout, exbind_ok]
  refine ⟨_, rfl, ?_, ?_⟩
  · intro k hk
    have hk' := (mem_keys_iff out.2.2 k).mp hk
    rw [hkeys] at hk'
    exact hsmem k hk'
  · intro m hmS
    have hchain : (∃ p, (m, p) ∈ out.2.2) ↔ m ∈ nums := by
      rw [mem_keys_iff out.2.2 m, hkeys, mem_sortedSet]
    rw [hchain, hniff m]
    constructor
    · rintro ⟨t, htA, htake⟩
      obtain ⟨htm, hcond⟩ := List.mem_filter.mp htA
      obtain ⟨hne, _⟩ := Bool.and_eq_true_iff.mp hcond
      have hne' : t.date ≠ "" := by
        intro he
        rw [he] at hne
        simp at hne
      refine ⟨t, htm, hne', ?_⟩
      have h1 : t.date.data.take 7 = (toString cy).data ++ '-' :: m.data := congrArg String.data htake
      have h2 : t.date.data = ((toString cy).data ++ '-' :: m.data) ++ t.date.data.drop 7 := by
        rw [← h1, List.take_append_drop]
      exact (startsWithL_iff _ _).mpr ⟨t.date.data.drop 7, h2⟩
    · rintro ⟨t, htm, hne', hpre⟩
      obtain ⟨r1, hr1⟩ := (startsWithL_iff _ _).mp hpre
      have hpcy : pyStartsWith t.date (toString cy) = true := by
        refine (startsWithL_iff _ _).mpr ⟨'-' :: m.data ++ r1, ?_⟩
        rw [hr1, List.append_assoc]
      have htA : t ∈ ts.filter (fun t => (!(t.date == "")) && pyStartsWith t.date (toString cy)) := by
        refine List.mem_filter.mpr ⟨htm, ?_⟩
        rw [Bool.and_eq_true_iff]
        refine ⟨?_, hpcy⟩
        simp [hne']
      obtain ⟨mm, hmm, htake⟩ := Hwf t htm hne' hpcy
      have e1 : t.date.data.take 7 = (toString cy).data ++ '-' :: mm.data := congrArg String.data htake
      have e2 : t.date.data = ((toString cy).data ++ '-' :: mm.data) ++ t.date.data.drop 7 := by
        rw [← e1, List.take_append_drop]
      have heq : ((toString cy).data ++ '-' :: m.data) ++ r1
          = ((toString cy).data ++ '-' :: mm.data) ++ t.date.data.drop 7 := by
        rw [← hr1, ← e2]
      have hlen : ((toString cy).data ++ '-' :: m.data).length
          = ((toString cy).data ++ '-' :: mm.data).length := by
        simp [monthStrings_len m hmS, monthStrings_len mm hmm]
      have hpref := (List.append_inj heq hlen).1
      have hmd : m.data = mm.data := by
        have := (List.append_cancel_left hpref : ('-' :: m.data) = '-' :: mm.data)
        exact (List.cons.injEq _ _ _ _ ▸ this).2
      have hm_eq : m = mm := by
        have h2 : String.mk m.data = String.mk mm.data := by rw [hmd]
        simpa using h2
      exact ⟨t, htA, hm_eq ▸ htake⟩

/-- Witness for C8: with one 2025-07 and one 2024-03 transaction, July is a
key of `monthly_comparison` and March (present only in the previous year)
is not. -/
theorem c8_witness :
    ('-' ∉ (toString 2025).data)
    ∧ ((get_year_comparison_data
          [{ date := "2025-07-15", type_ := "income", amount := 100, category := "sales" },
           { date := "2024-03-02", type_ := "income", amount := 50, category := "sales" }]
          2025 2024).map
        (fun r => (r.monthly_comparison.map Prod.fst).contains "07") = Except.ok true)
    ∧ ((get_year_comparison_data
          [{ date := "2025-07-15", type_ := "income", amount := 100, category := "sales" },
           { date := "2024-03-02", type_ := "income", amount := 50, category := "sales" }]
          2025 2024).map
        (fun r => (r.monthly_comparison.map Prod.fst).contains "03") = Except.ok false) := by
  obtain ⟨r, hr, hsub, hiff⟩ := c8_year_comparison_month_scope
    [{ date := "2025-07-15", type_ := "income", amount := 100, category := "sales" },
     { date := "2024-03-02", type_ := "income", amount := 50, category := "sales" }]
    2025 2024 (by decide)
    (by
      intro t ht h1 h2
      rcases List.mem_cons.mp ht with rfl | ht'
      · exact ⟨"07", by decide, by decide⟩
      · rcases List.mem_cons.mp ht' with rfl | ht''
        · exact absurd h2 (by decide)
        · cases ht'')
  refine ⟨by decide, ?_, ?_⟩
  · rw [hr]
    have h07 : ∃ p, (("07" : String), p) ∈ r.monthly_comparison :=
      (hiff "07" (by decide)).mpr
        ⟨{ date := "2025-07-15", type_ := "income", amount := 100, category := "sales" },
         List.mem_cons_self _ _, by decide, by decide⟩
    have hmem := (mem_keys_iff r.monthly_comparison "07").mp h07
    simp only [Except.map]
    exact congrArg Except.ok (List.elem_eq_true_of_mem hmem)
  · rw [hr]
    have h03 : ¬ ∃ p, (("03" : String), p) ∈ r.monthly_comparison := by
      intro hmem
      obtain ⟨t, htm, hne, hpre⟩ := (hiff "03" (by decide)).mp hmem
      rcases List.mem_cons.mp htm with rfl | ht'
      · exact absurd hpre (by decide)
      · rcases List.mem_cons.mp ht' with rfl | ht''
        · exact absurd hpre (by decide)
        · cases ht''
    simp only [Except.map]
    have : ("03" : String) ∉ r.monthly_comparison.map Prod.fst := by
      intro hm
      exact h03 ((mem_keys_iff r.monthly_comparison "03").mpr hm)
    cases hcon : (r.monthly_comparison.map Prod.fst).contains "03"
    · rfl
    · exact absurd (List.mem_of_elem_eq_true hcon) this
